import Mathlib

/-!
Shallow embedding of the feegrant wire codec (`cosmos/feegrant/v1beta1/tx.pb.go`,
`src/unnamed/part_000`) and the query router (`src/baseapp/queryrouter.go`).

Conventions of the embedding:
- Go byte slices are `List Nat` (each element a byte value); Go `nil` versus
  non-nil-but-empty slices are told apart with `Option (List Nat)` where it
  matters (the message byte fields), `none` standing for `nil`.
- Go's `uint64` / `int` (64-bit) arithmetic is `Nat` with explicit `% 2 ^ 64`
  where the Go code can wrap, and an explicit `2 ^ 63 ≤ _` test wherever the Go
  code tests a signed value for negativity.
- Functions that mutate their receiver (`Unmarshal`) thread the message value
  explicitly and return the partially updated message next to the error, so
  that the absence of rollback is observable.
- The backward writer (`MarshalToSizedBuffer`, which fills a pre-sized buffer
  from its end) is rendered as prepending to the list of bytes written so far:
  writing block B directly before already-written bytes `acc` is `B ++ acc`.
  `Marshal` returns `dAtA[:n]`; since the number of written bytes `n` provably
  equals `Size` (theorem for claim C5), the returned slice is exactly the
  written bytes, which is what `marshal` below produces.
- Loops are given explicit fuel, always initialised to the length of the
  buffer being scanned; every iteration of the Go loops consumes at least one
  byte (the tag varint), so this fuel is never exhausted on the real control
  paths and the `outOfFuel` error is unreachable.
-/

/-- Errors of the embedded code. Each constructor corresponds to one concrete
Go error value or `panic` site; the comments give the mapping, and the spec's
taxonomy name (§7) where it has one. -/
inductive GoError where
  /-- `ErrIntOverflowTx` (spec: `IntegerOverflow`). -/
  | intOverflow
  /-- `io.ErrUnexpectedEOF` (spec: `TruncatedInput`). -/
  | unexpectedEOF
  /-- `ErrInvalidLengthTx`, "negative length found during unmarshaling"
  (spec: `NegativeLength`). -/
  | invalidLength
  /-- `ErrUnexpectedEndOfGroupTx` (spec: `UnexpectedGroupEnd`). -/
  | unexpectedEndOfGroup
  /-- `fmt.Errorf("proto: illegal wireType %d", wireType)` in `skipTx`. -/
  | illegalWireType (t : Nat)
  /-- `fmt.Errorf("proto: ...: wiretype end group for non-group")`. -/
  | endGroupNonGroup
  /-- `fmt.Errorf("proto: ...: illegal tag %d ...")` (spec: `IllegalTag`). -/
  | illegalTag
  /-- `fmt.Errorf("proto: wrong wireType = %d for field ...")`. -/
  | wrongWireType
  /-- `fmt.Errorf("unexpected method name %s", method)` in `Invoke`
  (spec: `MalformedPath`). -/
  | malformedPath
  /-- `fmt.Errorf("handler not found for %s", path[1])` in `Invoke`
  (spec: `HandlerNotFound`). -/
  | handlerNotFound
  /-- `sdkerrors.Wrapf(sdkerrors.ErrUnknownRequest, "unknown query path: %s", ...)`
  in the `RegisterService` closure (spec: `UnknownPath`). -/
  | unknownPath
  /-- `fmt.Errorf("not supported")` in `NewStream` (spec: `Unsupported`). -/
  | notSupported
  /-- `panic("route expressions can only contain alphanumeric characters")` in
  `AddRoute` (spec: `InvalidPathCharacters`). -/
  | invalidPathCharacters
  /-- `panic(fmt.Sprintf("route %s has already been initialized", path))` in
  `AddRoute` (spec: `DuplicateRoute`). -/
  | duplicateRoute
  /-- Go runtime panic (index out of range), for `path[0]` on an empty slice in
  the `RegisterService` closure. -/
  | runtimePanic
  /-- Unreachable: loop fuel exhausted. Fuel is initialised to the buffer
  length and each Go loop iteration consumes at least one byte. -/
  | outOfFuel
deriving DecidableEq, Repr

instance {ε α : Type} [DecidableEq ε] [DecidableEq α] : DecidableEq (Except ε α) := fun a b =>
  match a, b with
  | Except.ok x, Except.ok y =>
    if h : x = y then isTrue (by rw [h]) else isFalse (by intro hc; cases hc; exact h rfl)
  | Except.error x, Except.error y =>
    if h : x = y then isTrue (by rw [h]) else isFalse (by intro hc; cases hc; exact h rfl)
  | Except.ok _, Except.error _ => isFalse (by intro hc; cases hc)
  | Except.error _, Except.ok _ => isFalse (by intro hc; cases hc)

/-- Reinterpretation of the low 32 bits of a `Nat` as Go's `int32`, used for
`fieldNum := int32(wire >> 3)` in every `Unmarshal`. -/
def toInt32 (n : Nat) : Int :=
  if n % 2 ^ 32 < 2 ^ 31 then (n % 2 ^ 32 : Int) else (n % 2 ^ 32 : Int) - 2 ^ 32

/-- Varint accumulation loop, the exact control flow that `skipTx` and every
`Unmarshal` in the source repeat textually: check `shift >= 64` (overflow),
check end of buffer (truncation), take one byte, or its low seven bits shifted
by `shift` into the accumulator (64-bit, hence the `% 2 ^ 64`), and stop on a
byte without the continuation bit.  It returns the accumulated value and the
unconsumed suffix of the buffer.  The Go loops accumulating into a signed
`int` (the `byteLen` loops) have the same bit-level behaviour; negativity of
their result is tested as `2 ^ 63 ≤ value` at the use sites. -/
def varintLoop : List Nat → Nat → Nat → Except GoError (Nat × List Nat)
  | rest, shift, acc =>
    if 64 ≤ shift then Except.error GoError.intOverflow
    else
      match rest with
      | [] => Except.error GoError.unexpectedEOF
      | b :: rest2 =>
        let acc2 := acc ||| (((b &&& 0x7F) <<< shift) % 2 ^ 64)
        if b < 0x80 then Except.ok (acc2, rest2) else varintLoop rest2 (shift + 7) acc2

/-- Bytes of the varint encoding of `v`, low seven-bit groups first, every
byte but the last carrying the continuation bit: the digits written by the
loop of `encodeVarintTx`.  The fuel (10 at the entry point) only bounds the
recursion; it is never exhausted for `v < 2 ^ 64`, the range of the Go
argument. -/
def encodeVarintAux : Nat → Nat → List Nat
  | 0, v => [v % 0x80]
  | fuel + 1, v =>
    if v < 0x80 then [v] else (v &&& 0x7F ||| 0x80) :: encodeVarintAux fuel (v >>> 7)

/-- Varint encoding of `v` (the byte sequence written by `encodeVarintTx`). -/
def encodeVarint (v : Nat) : List Nat := encodeVarintAux 10 v

/-- Translation of `encodeVarintTx(dAtA, offset, v)`: the writer moves its
offset back by `sovTx v` and writes the varint digits of `v` forward from
there, i.e. it places `encodeVarint v` directly before the bytes already
written. -/
def encodeVarintTx (acc : List Nat) (v : Nat) : List Nat := encodeVarint v ++ acc

/-- Translation of `sovTx`: `(math_bits.Len64(x|1) + 6) / 7`.  `Nat.size`
agrees with `math_bits.Len64` on the Go range `x < 2 ^ 64`. -/
def sovTx (x : Nat) : Nat := (Nat.size (x ||| 1) + 6) / 7

/-- Modelled from the spec: the `types.Any` container (§3, §4.4) is not part
of `src/`; only its use sites are.  Per the spec it is a pair of a string type
identifier and opaque encoded bytes.  Its wire codec below follows the same
generated gogoproto pattern as the messages in `src/unnamed/part_000`, with
the type identifier as length-delimited field 1 and the opaque bytes as
length-delimited field 2 (both omitted when empty). -/
structure Any where
  typeUrl : List Nat
  value : List Nat
deriving DecidableEq, Repr

/-- Modelled from the spec: `Any.Size`, shaped like the generated `Size`
functions in the source. -/
def Any.size (m : Any) : Nat :=
  let n := 0
  let l := m.typeUrl.length
  let n := if 0 < l then n + (1 + l + sovTx l) else n
  let l := m.value.length
  let n := if 0 < l then n + (1 + l + sovTx l) else n
  n

/-- Modelled from the spec: `Any.MarshalToSizedBuffer`, shaped like the
generated marshallers in the source (highest field number written first, i.e.
prepended last).  Typed `Except` because the Go function returns an error
slot; this model never fills it. -/
def Any.marshalToSizedBuffer (m : Any) : Except GoError (List Nat) :=
  let acc : List Nat := []
  let acc := if 0 < m.value.length
    then 0x12 :: (encodeVarint m.value.length ++ (m.value ++ acc)) else acc
  let acc := if 0 < m.typeUrl.length
    then 0x0a :: (encodeVarint m.typeUrl.length ++ (m.typeUrl ++ acc)) else acc
  Except.ok acc

/-- `MsgGrantFeeAllowance`: `Granter` and `Grantee` are byte-slice fields
(field numbers 1 and 2, `nil` modelled as `none`), `Allowance` a pointer to an
`Any` (field number 3, `nil` modelled as `none`). -/
structure MsgGrantFeeAllowance where
  granter : Option (List Nat)
  grantee : Option (List Nat)
  allowance : Option Any
deriving DecidableEq, Repr

/-- `MsgRevokeFeeAllowance`: byte-slice fields `Granter` and `Grantee`
(field numbers 1 and 2). -/
structure MsgRevokeFeeAllowance where
  granter : Option (List Nat)
  grantee : Option (List Nat)
deriving DecidableEq, Repr

/-- `MsgGrantFeeAllowanceResponse`: no fields. -/
structure MsgGrantFeeAllowanceResponse where
deriving DecidableEq, Repr

/-- `MsgRevokeFeeAllowanceResponse`: no fields. -/
structure MsgRevokeFeeAllowanceResponse where
deriving DecidableEq, Repr

/-- Translation of `(*MsgRevokeFeeAllowance).Size`: each byte field
contributes nothing when empty (`len` of `nil` is 0), else one tag byte plus
payload plus the varint length of the length. -/
def MsgRevokeFeeAllowance.size (m : MsgRevokeFeeAllowance) : Nat :=
  let n := 0
  let l := (m.granter.getD []).length
  let n := if 0 < l then n + (1 + l + sovTx l) else n
  let l := (m.grantee.getD []).length
  let n := if 0 < l then n + (1 + l + sovTx l) else n
  n

/-- Translation of `(*MsgGrantFeeAllowance).Size`. -/
def MsgGrantFeeAllowance.size (m : MsgGrantFeeAllowance) : Nat :=
  let n := 0
  let l := (m.granter.getD []).length
  let n := if 0 < l then n + (1 + l + sovTx l) else n
  let l := (m.grantee.getD []).length
  let n := if 0 < l then n + (1 + l + sovTx l) else n
  let n := match m.allowance with
    | some a => n + (1 + a.size + sovTx a.size)
    | none => n
  n

/-- Translation of `(*MsgRevokeFeeAllowance).MarshalToSizedBuffer`: `Grantee`
(tag byte `0x12`) is written first at the end of the buffer, then `Granter`
(tag byte `0x0a`) before it; empty fields are skipped entirely. -/
def MsgRevokeFeeAllowance.marshalToSizedBuffer (m : MsgRevokeFeeAllowance) : List Nat :=
  let acc : List Nat := []
  let acc := if 0 < (m.grantee.getD []).length
    then 0x12 :: (encodeVarint (m.grantee.getD []).length ++ (m.grantee.getD [] ++ acc))
    else acc
  let acc := if 0 < (m.granter.getD []).length
    then 0x0a :: (encodeVarint (m.granter.getD []).length ++ (m.granter.getD [] ++ acc))
    else acc
  acc

/-- Translation of `(*MsgRevokeFeeAllowance).Marshal` (allocate `Size` bytes,
fill them backward, return `dAtA[:n]`; see the header note). -/
def MsgRevokeFeeAllowance.marshal (m : MsgRevokeFeeAllowance) : List Nat :=
  m.marshalToSizedBuffer

/-- Translation of `(*MsgGrantFeeAllowance).MarshalToSizedBuffer`: the
`Allowance` submessage (tag byte `0x1a`) is written first, its own size
varint and tag before it, propagating any submessage error; then `Grantee`,
then `Granter`. -/
def MsgGrantFeeAllowance.marshalToSizedBuffer (m : MsgGrantFeeAllowance) :
    Except GoError (List Nat) :=
  let acc : List Nat := []
  let step : Except GoError (List Nat) :=
    match m.allowance with
    | some a =>
      match a.marshalToSizedBuffer with
      | Except.error e => Except.error e
      | Except.ok sub =>
        Except.ok (0x1a :: (encodeVarint sub.length ++ (sub ++ acc)))
    | none => Except.ok acc
  match step with
  | Except.error e => Except.error e
  | Except.ok acc =>
    let acc := if 0 < (m.grantee.getD []).length
      then 0x12 :: (encodeVarint (m.grantee.getD []).length ++ (m.grantee.getD [] ++ acc))
      else acc
    let acc := if 0 < (m.granter.getD []).length
      then 0x0a :: (encodeVarint (m.granter.getD []).length ++ (m.granter.getD [] ++ acc))
      else acc
    Except.ok acc

/-- Translation of `(*MsgGrantFeeAllowance).Marshal`. -/
def MsgGrantFeeAllowance.marshal (m : MsgGrantFeeAllowance) : Except GoError (List Nat) :=
  m.marshalToSizedBuffer

/-- Translation of `(*MsgRevokeFeeAllowanceResponse).Marshal` (no fields,
zero bytes written). -/
def MsgRevokeFeeAllowanceResponse.marshal (_ : MsgRevokeFeeAllowanceResponse) : List Nat := []

/-- Translation of `(*MsgGrantFeeAllowanceResponse).Marshal`. -/
def MsgGrantFeeAllowanceResponse.marshal (_ : MsgGrantFeeAllowanceResponse) : List Nat := []

/-- Translation of `skipTx`, cursor style: `rest` is the unscanned suffix,
`iNdEx` the absolute cursor (which, unlike `rest`, can move past the end of
the input: the wire types 1, 2 and 5 advance it without any bounds check).
The loop guard `iNdEx < l` is equivalent to `rest ≠ []` whenever the cursor
is within bounds, and when a length overshoots, `rest` becomes `[]` exactly
as the guard fails.  `if iNdEx < 0` on Go's 64-bit `int` is `2 ^ 63 ≤ iNdEx`.
Each iteration consumes at least the one tag byte, so fuel ≥ buffer length
suffices. -/
def skipLoop : Nat → List Nat → Nat → Nat → Except GoError Nat
  | 0, _ :: _, _, _ => Except.error GoError.outOfFuel
  | _, [], _, _ => Except.error GoError.unexpectedEOF
  | fuel + 1, rest@(_ :: _), iNdEx, depth =>
    match varintLoop rest 0 0 with
    | Except.error e => Except.error e
    | Except.ok (wire, rest1) =>
      let iNdEx1 := iNdEx + (rest.length - rest1.length)
      let wireType := wire &&& 0x7
      if wireType = 0 then
        match varintLoop rest1 0 0 with
        | Except.error e => Except.error e
        | Except.ok (_, rest2) =>
          let iNdEx2 := iNdEx1 + (rest1.length - rest2.length)
          if 2 ^ 63 ≤ iNdEx2 then Except.error GoError.invalidLength
          else if depth = 0 then Except.ok iNdEx2
          else skipLoop fuel rest2 iNdEx2 depth
      else if wireType = 1 then
        let iNdEx2 := iNdEx1 + 8
        if 2 ^ 63 ≤ iNdEx2 then Except.error GoError.invalidLength
        else if depth = 0 then Except.ok iNdEx2
        else skipLoop fuel (rest1.drop 8) iNdEx2 depth
      else if wireType = 2 then
        match varintLoop rest1 0 0 with
        | Except.error e => Except.error e
        | Except.ok (len, rest2) =>
          if 2 ^ 63 ≤ len then Except.error GoError.invalidLength
          else
            let iNdEx2 := iNdEx1 + (rest1.length - rest2.length) + len
            if 2 ^ 63 ≤ iNdEx2 then Except.error GoError.invalidLength
            else if depth = 0 then Except.ok iNdEx2
            else skipLoop fuel (rest2.drop len) iNdEx2 depth
      else if wireType = 3 then
        if 2 ^ 63 ≤ iNdEx1 then Except.error GoError.invalidLength
        else skipLoop fuel rest1 iNdEx1 (depth + 1)
      else if wireType = 4 then
        if depth = 0 then Except.error GoError.unexpectedEndOfGroup
        else if 2 ^ 63 ≤ iNdEx1 then Except.error GoError.invalidLength
        else if depth - 1 = 0 then Except.ok iNdEx1
        else skipLoop fuel rest1 iNdEx1 (depth - 1)
      else if wireType = 5 then
        let iNdEx2 := iNdEx1 + 4
        if 2 ^ 63 ≤ iNdEx2 then Except.error GoError.invalidLength
        else if depth = 0 then Except.ok iNdEx2
        else skipLoop fuel (rest1.drop 4) iNdEx2 depth
      else Except.error (GoError.illegalWireType wireType)

/-- Translation of `skipTx(dAtA)`: scan one field starting at the head of
`dAtA`, returning the number of bytes it occupies (the final cursor). -/
def skipTx (dAtA : List Nat) : Except GoError Nat := skipLoop dAtA.length dAtA 0 0

/-- One length-delimited payload read, shared shape of the `case 1` / `case 2`
bodies of the `Unmarshal` loops: read the `byteLen` varint, reject it when its
bit 63 is set (`byteLen < 0` on Go's signed `int`), reject `postIndex < 0`
(`2 ^ 63 ≤ iNdEx + byteLen`), reject `postIndex > l` (payload longer than the
remaining buffer), else hand back the payload bytes, the remaining suffix and
the new absolute cursor. -/
def readLengthDelim (rest : List Nat) (iNdEx : Nat) :
    Except GoError (List Nat × List Nat × Nat) :=
  match varintLoop rest 0 0 with
  | Except.error e => Except.error e
  | Except.ok (byteLen, rest2) =>
    if 2 ^ 63 ≤ byteLen then Except.error GoError.invalidLength
    else
      let iNdEx2 := iNdEx + (rest.length - rest2.length)
      if 2 ^ 63 ≤ iNdEx2 + byteLen then Except.error GoError.invalidLength
      else if rest2.length < byteLen then Except.error GoError.unexpectedEOF
      else Except.ok (rest2.take byteLen, rest2.drop byteLen, iNdEx2 + byteLen)

/-- Default branch of the `Unmarshal` loops: `iNdEx = preIndex`, `skipTx` on
the suffix from the tag onward, then `skippy < 0` (vacuous for `Nat`),
`iNdEx + skippy < 0` and `iNdEx + skippy > l` checks. -/
def skipField (dAtA : List Nat) (iNdEx : Nat) : Except GoError (List Nat × Nat) :=
  match skipTx dAtA with
  | Except.error e => Except.error e
  | Except.ok skippy =>
    if 2 ^ 63 ≤ iNdEx + skippy then Except.error GoError.invalidLength
    else if dAtA.length < skippy then Except.error GoError.unexpectedEOF
    else Except.ok (dAtA.drop skippy, iNdEx + skippy)

/-- Loop of `(*MsgRevokeFeeAllowance).Unmarshal`, threading the destination
message (`m` is mutated in place in Go; fields assigned before a failure stay
assigned).  Per iteration: read the tag varint, reject wire type 4
("end group for non-group"), reject `fieldNum <= 0` (`int32` view), then
`case 1` (Granter), `case 2` (Grantee) — each requiring wire type 2 and
storing the payload as a present (possibly empty) value, the net effect of
`append(m.X[:0], ...)` plus the `nil` fix-up — or the skip default. -/
def MsgRevokeFeeAllowance.unmarshalLoop :
    Nat → List Nat → Nat → MsgRevokeFeeAllowance →
      MsgRevokeFeeAllowance × Option GoError
  | 0, _ :: _, _, m => (m, some GoError.outOfFuel)
  | _, [], _, m => (m, none)
  | fuel + 1, dAtA@(_ :: _), iNdEx, m =>
    match varintLoop dAtA 0 0 with
    | Except.error e => (m, some e)
    | Except.ok (wire, rest) =>
      let iNdEx1 := iNdEx + (dAtA.length - rest.length)
      let fieldNum := toInt32 (wire >>> 3)
      let wireType := wire &&& 0x7
      if wireType = 4 then (m, some GoError.endGroupNonGroup)
      else if fieldNum ≤ 0 then (m, some GoError.illegalTag)
      else if fieldNum = 1 then
        if wireType ≠ 2 then (m, some GoError.wrongWireType)
        else
          match readLengthDelim rest iNdEx1 with
          | Except.error e => (m, some e)
          | Except.ok (payload, rest2, iNdEx2) =>
            MsgRevokeFeeAllowance.unmarshalLoop fuel rest2 iNdEx2
              { m with granter := some payload }
      else if fieldNum = 2 then
        if wireType ≠ 2 then (m, some GoError.wrongWireType)
        else
          match readLengthDelim rest iNdEx1 with
          | Except.error e => (m, some e)
          | Except.ok (payload, rest2, iNdEx2) =>
            MsgRevokeFeeAllowance.unmarshalLoop fuel rest2 iNdEx2
              { m with grantee := some payload }
      else
        match skipField dAtA iNdEx with
        | Except.error e => (m, some e)
        | Except.ok (rest2, iNdEx2) =>
          MsgRevokeFeeAllowance.unmarshalLoop fuel rest2 iNdEx2 m

/-- Translation of `(*MsgRevokeFeeAllowance).Unmarshal` on destination `m`. -/
def MsgRevokeFeeAllowance.unmarshal (m : MsgRevokeFeeAllowance) (dAtA : List Nat) :
    Except GoError MsgRevokeFeeAllowance :=
  match MsgRevokeFeeAllowance.unmarshalLoop dAtA.length dAtA 0 m with
  | (m2, none) => Except.ok m2
  | (_, some e) => Except.error e

/-- Modelled from the spec: loop of `Any.Unmarshal`, same generated shape as
the message loops in the source, with field 1 the type identifier and field 2
the opaque bytes, both length-delimited. -/
def Any.unmarshalLoop : Nat → List Nat → Nat → Any → Any × Option GoError
  | 0, _ :: _, _, m => (m, some GoError.outOfFuel)
  | _, [], _, m => (m, none)
  | fuel + 1, dAtA@(_ :: _), iNdEx, m =>
    match varintLoop dAtA 0 0 with
    | Except.error e => (m, some e)
    | Except.ok (wire, rest) =>
      let iNdEx1 := iNdEx + (dAtA.length - rest.length)
      let fieldNum := toInt32 (wire >>> 3)
      let wireType := wire &&& 0x7
      if wireType = 4 then (m, some GoError.endGroupNonGroup)
      else if fieldNum ≤ 0 then (m, some GoError.illegalTag)
      else if fieldNum = 1 then
        if wireType ≠ 2 then (m, some GoError.wrongWireType)
        else
          match readLengthDelim rest iNdEx1 with
          | Except.error e => (m, some e)
          | Except.ok (payload, rest2, iNdEx2) =>
            Any.unmarshalLoop fuel rest2 iNdEx2 { m with typeUrl := payload }
      else if fieldNum = 2 then
        if wireType ≠ 2 then (m, some GoError.wrongWireType)
        else
          match readLengthDelim rest iNdEx1 with
          | Except.error e => (m, some e)
          | Except.ok (payload, rest2, iNdEx2) =>
            Any.unmarshalLoop fuel rest2 iNdEx2 { m with value := payload }
      else
        match skipField dAtA iNdEx with
        | Except.error e => (m, some e)
        | Except.ok (rest2, iNdEx2) => Any.unmarshalLoop fuel rest2 iNdEx2 m

/-- Modelled from the spec: `Any.Unmarshal` on destination `m`. -/
def Any.unmarshal (m : Any) (dAtA : List Nat) : Except GoError Any :=
  match Any.unmarshalLoop dAtA.length dAtA 0 m with
  | (m2, none) => Except.ok m2
  | (_, some e) => Except.error e

/-- Loop of `(*MsgGrantFeeAllowance).Unmarshal`: like the revoke loop plus
`case 3` (Allowance), which reads a length-delimited submessage, allocates a
fresh `Any` if the field is still `nil`, and merges by calling the
submessage's own `Unmarshal` on exactly the payload slice. -/
def MsgGrantFeeAllowance.unmarshalLoop :
    Nat → List Nat → Nat → MsgGrantFeeAllowance →
      MsgGrantFeeAllowance × Option GoError
  | 0, _ :: _, _, m => (m, some GoError.outOfFuel)
  | _, [], _, m => (m, none)
  | fuel + 1, dAtA@(_ :: _), iNdEx, m =>
    match varintLoop dAtA 0 0 with
    | Except.error e => (m, some e)
    | Except.ok (wire, rest) =>
      let iNdEx1 := iNdEx + (dAtA.length - rest.length)
      let fieldNum := toInt32 (wire >>> 3)
      let wireType := wire &&& 0x7
      if wireType = 4 then (m, some GoError.endGroupNonGroup)
      else if fieldNum ≤ 0 then (m, some GoError.illegalTag)
      else if fieldNum = 1 then
        if wireType ≠ 2 then (m, some GoError.wrongWireType)
        else
          match readLengthDelim rest iNdEx1 with
          | Except.error e => (m, some e)
          | Except.ok (payload, rest2, iNdEx2) =>
            MsgGrantFeeAllowance.unmarshalLoop fuel rest2 iNdEx2
              { m with granter := some payload }
      else if fieldNum = 2 then
        if wireType ≠ 2 then (m, some GoError.wrongWireType)
        else
          match readLengthDelim rest iNdEx1 with
          | Except.error e => (m, some e)
          | Except.ok (payload, rest2, iNdEx2) =>
            MsgGrantFeeAllowance.unmarshalLoop fuel rest2 iNdEx2
              { m with grantee := some payload }
      else if fieldNum = 3 then
        if wireType ≠ 2 then (m, some GoError.wrongWireType)
        else
          match readLengthDelim rest iNdEx1 with
          | Except.error e => (m, some e)
          | Except.ok (payload, rest2, iNdEx2) =>
            match Any.unmarshal (m.allowance.getD { typeUrl := [], value := [] }) payload with
            | Except.error e => (m, some e)
            | Except.ok a2 =>
              MsgGrantFeeAllowance.unmarshalLoop fuel rest2 iNdEx2
                { m with allowance := some a2 }
      else
        match skipField dAtA iNdEx with
        | Except.error e => (m, some e)
        | Except.ok (rest2, iNdEx2) =>
          MsgGrantFeeAllowance.unmarshalLoop fuel rest2 iNdEx2 m

/-- Translation of `(*MsgGrantFeeAllowance).Unmarshal` on destination `m`. -/
def MsgGrantFeeAllowance.unmarshal (m : MsgGrantFeeAllowance) (dAtA : List Nat) :
    Except GoError MsgGrantFeeAllowance :=
  match MsgGrantFeeAllowance.unmarshalLoop dAtA.length dAtA 0 m with
  | (m2, none) => Except.ok m2
  | (_, some e) => Except.error e

/-- Loop of `(*MsgRevokeFeeAllowanceResponse).Unmarshal` (no fields: only the
tag checks and the skip default). -/
def MsgRevokeFeeAllowanceResponse.unmarshalLoop :
    Nat → List Nat → Nat → MsgRevokeFeeAllowanceResponse →
      MsgRevokeFeeAllowanceResponse × Option GoError
  | 0, _ :: _, _, m => (m, some GoError.outOfFuel)
  | _, [], _, m => (m, none)
  | fuel + 1, dAtA@(_ :: _), iNdEx, m =>
    match varintLoop dAtA 0 0 with
    | Except.error e => (m, some e)
    | Except.ok (wire, _) =>
      let fieldNum := toInt32 (wire >>> 3)
      let wireType := wire &&& 0x7
      if wireType = 4 then (m, some GoError.endGroupNonGroup)
      else if fieldNum ≤ 0 then (m, some GoError.illegalTag)
      else
        match skipField dAtA iNdEx with
        | Except.error e => (m, some e)
        | Except.ok (rest2, iNdEx2) =>
          MsgRevokeFeeAllowanceResponse.unmarshalLoop fuel rest2 iNdEx2 m

/-- Translation of `(*MsgRevokeFeeAllowanceResponse).Unmarshal`. -/
def MsgRevokeFeeAllowanceResponse.unmarshal (m : MsgRevokeFeeAllowanceResponse)
    (dAtA : List Nat) : Except GoError MsgRevokeFeeAllowanceResponse :=
  match MsgRevokeFeeAllowanceResponse.unmarshalLoop dAtA.length dAtA 0 m with
  | (m2, none) => Except.ok m2
  | (_, some e) => Except.error e

/-- Modelled from the spec: `isAlphaNumeric` is referenced by `AddRoute` but
defined elsewhere in the repository (a `^[a-zA-Z0-9]+$` regular-expression
match); the spec states "path strings are restricted to alphanumeric
characters". -/
def isAlphaNumeric (s : String) : Bool :=
  !s.isEmpty && s.data.all fun c => c.isAlpha || c.isDigit

/-- Handler type of the route table (`sdk.Querier`): the Go querier takes a
context, a path suffix and an `abci.RequestQuery`; the context is opaque to
the routing code and only `req.Data` is consulted, so the embedding passes
the path suffix and the request bytes. -/
def Querier : Type := List String → List Nat → Except GoError (List Nat)

/-- The route table (`QueryRouter`): a Go map from path strings to queriers,
modelled as a function to `Option`. -/
structure QueryRouter where
  routes : String → Option Querier

/-- Translation of `NewQueryRouter` (empty map). -/
def newQueryRouter : QueryRouter := { routes := fun _ => none }

/-- Translation of `(*QueryRouter).AddRoute`: panics (modelled as `error`) on
a non-alphanumeric path or on a path already present; otherwise inserts. -/
def QueryRouter.addRoute (qrt : QueryRouter) (path : String) (q : Querier) :
    Except GoError QueryRouter :=
  if ¬ isAlphaNumeric path then Except.error GoError.invalidPathCharacters
  else if (qrt.routes path).isSome then Except.error GoError.duplicateRoute
  else Except.ok { routes := fun p => if p = path then some q else qrt.routes p }

/-- Translation of `(*QueryRouter).Route`: pure map lookup. -/
def QueryRouter.route (qrt : QueryRouter) (path : String) : Option Querier :=
  qrt.routes path

/-- One entry of a `grpc.MethodDesc` list: a method name and its generated
handler.  The generated Go handler takes the server implementation and a
decoder for the request bytes and returns the response message; the closure
in `RegisterService` then proto-marshals that response.  The embedding folds
the generated handler and that final marshal into one function from the raw
request bytes (`req.Data`, what the decoder closure reads) to the encoded
response bytes, parameterised by the server implementation `σ`. -/
structure MethodDesc (σ : Type) where
  methodName : String
  handler : σ → List Nat → Except GoError (List Nat)

/-- A `grpc.ServiceDesc`: service name plus ordered method list. -/
structure ServiceDesc (σ : Type) where
  serviceName : String
  methods : List (MethodDesc σ)

/-- Translation of `(*QueryRouter).RegisterService`: assigns the closure
directly into the map under `sd.ServiceName` — it does not go through
`AddRoute`, so no alphanumeric or duplicate check runs and an existing entry
is replaced.  The closure reads `path[0]` (a runtime panic on an empty path
suffix), linearly scans the method list for it, runs the matching handler,
and otherwise fails with the unknown-query-path error. -/
def QueryRouter.registerService {σ : Type} (qrt : QueryRouter) (sd : ServiceDesc σ)
    (impl : σ) : QueryRouter :=
  let closure : Querier := fun path req =>
    match path with
    | [] => Except.error GoError.runtimePanic
    | path0 :: _ =>
      match sd.methods.find? (fun md => md.methodName = path0) with
      | some md => md.handler impl req
      | none => Except.error GoError.unknownPath
  { routes := fun p => if p = sd.serviceName then some closure else qrt.routes p }

/-- Application of a stored route to arguments (`Option.map` around the
lookup), used to observe table contents without comparing functions. -/
def QueryRouter.routeApply (qrt : QueryRouter) (p : String) (path : List String)
    (req : List Nat) : Option (Except GoError (List Nat)) :=
  (qrt.routes p).map fun f => f path req

/-- The server interface (`MsgServer`) of the `Msg` service in the source:
one function per method. -/
structure MsgServer where
  grantFeeAllowance :
    MsgGrantFeeAllowance → Except GoError MsgGrantFeeAllowanceResponse
  revokeFeeAllowance :
    MsgRevokeFeeAllowance → Except GoError MsgRevokeFeeAllowanceResponse

/-- Translation of `_Msg_GrantFeeAllowance_Handler` (with the closure's final
`protoCodec.Marshal(res)` folded in, see `MethodDesc`): decode the request
bytes into a fresh `MsgGrantFeeAllowance`, call the server, encode the
response. -/
def msgGrantFeeAllowanceHandler (srv : MsgServer) (data : List Nat) :
    Except GoError (List Nat) :=
  match MsgGrantFeeAllowance.unmarshal { granter := none, grantee := none, allowance := none } data with
  | Except.error e => Except.error e
  | Except.ok req =>
    match srv.grantFeeAllowance req with
    | Except.error e => Except.error e
    | Except.ok res => Except.ok res.marshal

/-- Translation of `_Msg_RevokeFeeAllowance_Handler` (same folding). -/
def msgRevokeFeeAllowanceHandler (srv : MsgServer) (data : List Nat) :
    Except GoError (List Nat) :=
  match MsgRevokeFeeAllowance.unmarshal { granter := none, grantee := none } data with
  | Except.error e => Except.error e
  | Except.ok req =>
    match srv.revokeFeeAllowance req with
    | Except.error e => Except.error e
    | Except.ok res => Except.ok res.marshal

/-- Translation of `_Msg_serviceDesc`. -/
def msgServiceDesc : ServiceDesc MsgServer :=
  { serviceName := "cosmos.feegrant.v1beta1.Msg"
    methods :=
      [ { methodName := "GrantFeeAllowance", handler := msgGrantFeeAllowanceHandler }
      , { methodName := "RevokeFeeAllowance", handler := msgRevokeFeeAllowanceHandler } ] }

/-- Go `strings.Split` restricted to the single-character separator `/`,
character-list version: every separator occurrence splits, `[]` maps to one
empty segment. -/
def splitSlashChars : List Char → List (List Char)
  | [] => [[]]
  | c :: rest =>
    if c = '/' then [] :: splitSlashChars rest
    else
      match splitSlashChars rest with
      | s :: ss => (c :: s) :: ss
      | [] => [[c]]

/-- Go `strings.Split(s, "/")`. -/
def stringsSplitSlash (s : String) : List String :=
  (splitSlashChars s.data).map fun l => String.mk l

/-- The in-process call adapter (`QueryServiceTestHelper`): a router plus a
context (opaque, omitted). -/
structure QueryServiceTestHelper where
  router : QueryRouter

/-- Translation of `NewQueryServerTestHelper`. -/
def newQueryServerTestHelper : QueryServiceTestHelper := { router := newQueryRouter }

/-- Translation of `(*QueryServiceTestHelper).Invoke`, instantiated (the Go
function is generic over the argument and reply messages through the proto
codec) at a `MsgRevokeFeeAllowance` argument and a
`MsgRevokeFeeAllowanceResponse` reply: split the method string on `/`; fail
with the unexpected-method-name error unless there are exactly 3 segments;
look up the route for segment 1, failing when absent; marshal the arguments;
call the querier with `path[2:]` and the request bytes; unmarshal its reply
bytes. -/
def QueryServiceTestHelper.invoke (q : QueryServiceTestHelper) (method : String)
    (args : MsgRevokeFeeAllowance) : Except GoError MsgRevokeFeeAllowanceResponse :=
  match stringsSplitSlash method with
  | [_, svc, mth] =>
    match q.router.routes svc with
    | none => Except.error GoError.handlerNotFound
    | some querier =>
      let reqBz := args.marshal
      match querier [mth] reqBz with
      | Except.error e => Except.error e
      | Except.ok resBz => MsgRevokeFeeAllowanceResponse.unmarshal {} resBz
  | _ => Except.error GoError.malformedPath

/-- Value described by a varint byte sequence: the low seven bits of each
byte, shifted into place seven bits at a time, low bits first, combined with
bitwise or in 64-bit arithmetic — the quantity the accumulation loops
compute. -/
def varintValue : List Nat → Nat → Nat
  | [], _ => 0
  | b :: bs, shift => (((b &&& 0x7F) <<< shift) % 2 ^ 64) ||| varintValue bs (shift + 7)

/-- A concrete `MsgServer` whose handlers succeed with the empty responses. -/
def msgServerOk : MsgServer :=
  { grantFeeAllowance := fun _ => Except.ok {}
    revokeFeeAllowance := fun _ => Except.ok {} }

/-- A concrete `MsgServer` whose handlers fail, distinguishable from
`msgServerOk` by behaviour. -/
def msgServerErr : MsgServer :=
  { grantFeeAllowance := fun _ => Except.error GoError.notSupported
    revokeFeeAllowance := fun _ => Except.error GoError.notSupported }


/-! ### Arithmetic and bit-level helper lemmas -/

theorem and_127_eq_mod (b : Nat) : b &&& 127 = b % 128 := by
  have h := Nat.and_pow_two_sub_one_eq_mod b 7
  norm_num at h
  exact h

theorem lor_two_pow_mul_eq_add {a : Nat} (n b : Nat) (ha : a < 2 ^ n) :
    a ||| b <<< n = b <<< n + a := by
  rw [Nat.shiftLeft_eq, Nat.or_comm, Nat.mul_comm, ← Nat.mul_add_lt_is_or ha, Nat.mul_comm]

theorem lor_128_eq_add {x : Nat} (hx : x < 128) : x ||| 128 = 128 + x := by
  have h := Nat.mul_add_lt_is_or (i := 7) (a := 1) (by norm_num [hx] : x < 2 ^ 7)
  norm_num at h
  rw [Nat.or_comm]
  omega

theorem lor_one_eq (v : Nat) : v ||| 1 = 2 * (v / 2) + 1 := by
  apply Nat.eq_of_testBit_eq
  intro i
  have h2 : (2 * (v / 2) + 1) = v / 2 * 2 ^ 1 + 1 := by ring
  cases i with
  | zero =>
    rw [Nat.testBit_lor]
    simp [Nat.testBit_zero]
    omega
  | succ i =>
    simp only [Nat.testBit_lor, Nat.testBit_add_one]
    rw [Nat.testBit_div_two, Nat.testBit_div_two, Nat.testBit_lor]
    have h1 : Nat.testBit 1 (i + 1) = false := by
      rw [Nat.testBit_add_one]
      simp
    rw [h1, Bool.or_false]
    have hd : (2 * (v / 2) + 1) / 2 = v / 2 := by omega
    conv_rhs => rw [Nat.testBit_add_one, hd]
    rw [Nat.testBit_div_two]

/-! ### Varint codec lemmas -/

theorem varintLoop_stop (b : Nat) (rest : List Nat) (shift acc : Nat)
    (hb : b < 0x80) (hs : shift < 64) :
    varintLoop (b :: rest) shift acc =
      Except.ok (acc ||| (((b &&& 0x7F) <<< shift) % 2 ^ 64), rest) := by
  conv_lhs => rw [varintLoop]
  rw [if_neg (Nat.not_le.mpr hs)]
  simp only [if_pos hb]

theorem varintLoop_cont (b : Nat) (rest : List Nat) (shift acc : Nat)
    (hb : ¬ b < 0x80) (hs : shift < 64) :
    varintLoop (b :: rest) shift acc =
      varintLoop rest (shift + 7) (acc ||| (((b &&& 0x7F) <<< shift) % 2 ^ 64)) := by
  conv_lhs => rw [varintLoop]
  rw [if_neg (Nat.not_le.mpr hs)]
  simp only [if_neg hb]

theorem varint_roundtrip_aux (fuel : Nat) :
    ∀ v shift acc rest, v < 2 ^ (7 * fuel) → acc < 2 ^ shift → v * 2 ^ shift < 2 ^ 64 →
      shift < 64 →
      varintLoop (encodeVarintAux fuel v ++ rest) shift acc =
        Except.ok (acc + v * 2 ^ shift, rest) := by
  induction fuel with
  | zero =>
    intro v shift acc rest hv hacc hvs hs
    have hv0 : v = 0 := by simpa using hv
    subst hv0
    simp [encodeVarintAux, varintLoop, Nat.not_le.mpr hs]
  | succ fuel ih =>
    intro v shift acc rest hv hacc hvs hs
    by_cases hsmall : v < 0x80
    · have hlt : (v &&& 127) <<< shift % 2 ^ 64 = v * 2 ^ shift := by
        rw [and_127_eq_mod, Nat.mod_eq_of_lt hsmall, Nat.shiftLeft_eq]
        exact Nat.mod_eq_of_lt hvs
      simp only [encodeVarintAux, if_pos hsmall, List.cons_append, List.nil_append]
      rw [varintLoop_stop _ _ _ _ hsmall hs, hlt]
      rw [show v * 2 ^ shift = v <<< shift from (Nat.shiftLeft_eq v shift).symm]
      rw [lor_two_pow_mul_eq_add shift v hacc, Nat.shiftLeft_eq, Nat.add_comm]
    · have hm127 : v % 128 < 128 := Nat.mod_lt _ (by norm_num)
      have hbval : v &&& 127 ||| 128 = 128 + v % 128 := by
        rw [and_127_eq_mod]; exact lor_128_eq_add hm127
      have hbig : ¬ (v &&& 127 ||| 128) < 0x80 := by rw [hbval]; omega
      have hband : (v &&& 127 ||| 128) &&& 127 = v % 128 := by
        rw [hbval, and_127_eq_mod]
        omega
      have hms : v % 128 * 2 ^ shift < 2 ^ 64 :=
        Nat.lt_of_le_of_lt (Nat.mul_le_mul_right _ (Nat.mod_le v 128)) hvs
      have hmodid : (v % 128) <<< shift % 2 ^ 64 = v % 128 * 2 ^ shift := by
        rw [Nat.shiftLeft_eq]; exact Nat.mod_eq_of_lt hms
      have hacc2eq : acc ||| v % 128 * 2 ^ shift = v % 128 * 2 ^ shift + acc := by
        rw [← Nat.shiftLeft_eq (v % 128) shift]
        exact lor_two_pow_mul_eq_add shift (v % 128) hacc
      have hv' : v >>> 7 < 2 ^ (7 * fuel) := by
        rw [Nat.shiftRight_eq_div_pow]
        apply Nat.div_lt_of_lt_mul
        have hexp : 7 * (fuel + 1) = 7 + 7 * fuel := by ring
        rw [hexp, Nat.pow_add] at hv
        exact hv
      have hpow7 : (2 : Nat) ^ (shift + 7) = 2 ^ shift * 128 := by
        rw [Nat.pow_add]
      have hacc2lt : (v % 128) * 2 ^ shift + acc < 2 ^ (shift + 7) := by
        rw [hpow7]
        calc (v % 128) * 2 ^ shift + acc < (v % 128) * 2 ^ shift + 2 ^ shift :=
              Nat.add_lt_add_left hacc _
          _ = (v % 128 + 1) * 2 ^ shift := by ring
          _ ≤ 128 * 2 ^ shift := Nat.mul_le_mul_right _ (by omega)
          _ = 2 ^ shift * 128 := Nat.mul_comm _ _
      have hvs' : v >>> 7 * 2 ^ (shift + 7) ≤ v * 2 ^ shift := by
        rw [Nat.shiftRight_eq_div_pow, hpow7]
        norm_num
        calc v / 128 * (2 ^ shift * 128) = v / 128 * 128 * 2 ^ shift := by ring
          _ ≤ v * 2 ^ shift := Nat.mul_le_mul_right _ (Nat.div_mul_le_self v 128)
      have hvs'2 : v >>> 7 * 2 ^ (shift + 7) < 2 ^ 64 := Nat.lt_of_le_of_lt hvs' hvs
      have hvpos : 1 ≤ v >>> 7 := by
        rw [Nat.shiftRight_eq_div_pow]
        exact Nat.one_le_div_iff (by norm_num) |>.mpr (by omega)
      have hs' : shift + 7 < 64 := by
        by_contra hcon
        have h1 : (2 : Nat) ^ 64 ≤ 2 ^ (shift + 7) :=
          Nat.pow_le_pow_right (by norm_num) (by omega)
        have h2 : 2 ^ (shift + 7) ≤ v >>> 7 * 2 ^ (shift + 7) :=
          Nat.le_mul_of_pos_left _ (by omega)
        omega
      simp only [encodeVarintAux, if_neg hsmall, List.cons_append]
      rw [varintLoop_cont _ _ _ _ hbig hs, hband, hmodid, hacc2eq]
      rw [ih (v >>> 7) (shift + 7) _ rest hv' hacc2lt hvs'2 hs']
      congr 2
      have hsplit : 128 * (v / 128) + v % 128 = v := Nat.div_add_mod v 128
      rw [Nat.shiftRight_eq_div_pow, hpow7]
      calc v % 128 * 2 ^ shift + acc + v / 2 ^ 7 * (2 ^ shift * 128)
          = acc + (v % 128 + 128 * (v / 128)) * 2 ^ shift := by norm_num; ring
        _ = acc + v * 2 ^ shift := by rw [Nat.add_comm (v % 128) _, hsplit]

theorem varint_roundtrip (v : Nat) (rest : List Nat) (hv : v < 2 ^ 64) :
    varintLoop (encodeVarint v ++ rest) 0 0 = Except.ok (v, rest) := by
  have h := varint_roundtrip_aux 10 v 0 0 rest (by norm_num; omega) (by norm_num)
    (by simpa using hv) (by norm_num)
  simpa [encodeVarint] using h

theorem encodeVarintAux_length_pos (fuel v : Nat) : 0 < (encodeVarintAux fuel v).length := by
  cases fuel with
  | zero => simp [encodeVarintAux]
  | succ fuel =>
    by_cases h : v < 0x80 <;> simp [encodeVarintAux, h]

theorem encodeVarintAux_length_le (fuel : Nat) :
    ∀ v, 0 < fuel → v < 2 ^ (7 * fuel) → (encodeVarintAux fuel v).length ≤ fuel := by
  induction fuel with
  | zero => intro v h; omega
  | succ fuel ih =>
    intro v _ hv
    by_cases hsmall : v < 0x80
    · simp [encodeVarintAux, hsmall]
    · cases Nat.eq_zero_or_pos fuel with
      | inl hf0 =>
        subst hf0
        norm_num at hv
        omega
      | inr hfpos =>
        have hv' : v >>> 7 < 2 ^ (7 * fuel) := by
          rw [Nat.shiftRight_eq_div_pow]
          apply Nat.div_lt_of_lt_mul
          have hexp : 7 * (fuel + 1) = 7 + 7 * fuel := by ring
          rw [hexp, Nat.pow_add] at hv
          exact hv
        have := ih (v >>> 7) hfpos hv'
        simp only [encodeVarintAux, if_neg hsmall, List.length_cons]
        omega

theorem encodeVarint_length_le (v : Nat) (hv : v < 2 ^ 64) :
    (encodeVarint v).length ≤ 10 := by
  apply encodeVarintAux_length_le 10 v (by norm_num)
  norm_num
  omega

theorem encodeVarintAux_bounds (fuel : Nat) :
    ∀ v, 1 ≤ v → 0 < fuel → v < 2 ^ (7 * fuel) →
      2 ^ (7 * ((encodeVarintAux fuel v).length - 1)) ≤ v ∧
        v < 2 ^ (7 * (encodeVarintAux fuel v).length) := by
  induction fuel with
  | zero => intro v _ h; omega
  | succ fuel ih =>
    intro v hv1 _ hv
    by_cases hsmall : v < 0x80
    · simp only [encodeVarintAux, if_pos hsmall, List.length_singleton]
      norm_num
      exact ⟨hv1, hsmall⟩
    · cases Nat.eq_zero_or_pos fuel with
      | inl hf0 =>
        subst hf0
        norm_num at hv
        omega
      | inr hfpos =>
        have hv' : v >>> 7 < 2 ^ (7 * fuel) := by
          rw [Nat.shiftRight_eq_div_pow]
          apply Nat.div_lt_of_lt_mul
          have hexp : 7 * (fuel + 1) = 7 + 7 * fuel := by ring
          rw [hexp, Nat.pow_add] at hv
          exact hv
        have hv1' : 1 ≤ v >>> 7 := by
          rw [Nat.shiftRight_eq_div_pow]
          exact Nat.one_le_div_iff (by norm_num) |>.mpr (by omega)
        obtain ⟨hlo, hhi⟩ := ih (v >>> 7) hv1' hfpos hv'
        have hdpos := encodeVarintAux_length_pos fuel (v >>> 7)
        set d := (encodeVarintAux fuel (v >>> 7)).length with hd
        simp only [encodeVarintAux, if_neg hsmall, List.length_cons, ← hd]
        rw [Nat.shiftRight_eq_div_pow] at hlo hhi hv1'
        norm_num at hlo hhi hv1'
        constructor
        · have h1 : 7 * (d + 1 - 1) = 7 + 7 * (d - 1) := by omega
          rw [h1, Nat.pow_add]
          calc 2 ^ 7 * 2 ^ (7 * (d - 1)) ≤ 2 ^ 7 * (v / 128) :=
                Nat.mul_le_mul_left _ hlo
            _ = v / 128 * 128 := by norm_num [Nat.mul_comm]
            _ ≤ v := Nat.div_mul_le_self v 128
        · have h2 : 7 * (d + 1) = 7 + 7 * d := by ring
          rw [h2, Nat.pow_add]
          have hv128 : v < 128 * (v / 128) + 128 := by omega
          calc v < 128 * (v / 128) + 128 := hv128
            _ = 128 * (v / 128 + 1) := by ring
            _ ≤ 128 * 2 ^ (7 * d) := Nat.mul_le_mul_left _ (by omega)
            _ = 2 ^ 7 * 2 ^ (7 * d) := by norm_num

theorem sovTx_eq_length (v : Nat) (hv : v < 2 ^ 64) :
    sovTx v = (encodeVarint v).length := by
  by_cases hv0 : v = 0
  · subst hv0
    have hs1 : Nat.size 1 = 1 := by
      have h1 : Nat.size 1 ≤ 1 := Nat.size_le.mpr (by norm_num)
      have h2 : 0 < Nat.size 1 := Nat.lt_size.mpr (by norm_num)
      omega
    simp [sovTx, encodeVarint, encodeVarintAux, hs1]
  · have hv1 : 1 ≤ v := by omega
    obtain ⟨hlo, hhi⟩ := encodeVarintAux_bounds 10 v hv1 (by norm_num) (by norm_num; omega)
    have hdpos := encodeVarintAux_length_pos 10 v
    rw [show encodeVarintAux 10 v = encodeVarint v from rfl] at hlo hhi hdpos
    set d := (encodeVarint v).length with hd
    have hone := lor_one_eq v
    have hvle : v ≤ v ||| 1 := by omega
    have hvge : v ||| 1 ≤ v + 1 := by omega
    have hpoweven : 2 ^ (7 * d) = 2 * 2 ^ (7 * d - 1) := by
      have h7d : 7 * d = (7 * d - 1) + 1 := by omega
      conv_lhs => rw [h7d]
      rw [pow_succ, Nat.mul_comm]
    have hupper : v ||| 1 < 2 ^ (7 * d) := by omega
    have hlower : 2 ^ (7 * (d - 1)) ≤ v ||| 1 := Nat.le_trans hlo hvle
    have hsle : Nat.size (v ||| 1) ≤ 7 * d := Nat.size_le.mpr hupper
    have hslt : 7 * (d - 1) < Nat.size (v ||| 1) := Nat.lt_size.mpr hlower
    rw [sovTx]
    omega

theorem varintLoop_shift_ge (rest : List Nat) (shift acc : Nat) (hs : 64 ≤ shift) :
    varintLoop rest shift acc = Except.error GoError.intOverflow := by
  cases rest with
  | nil => simp [varintLoop, hs]
  | cons b bs => simp [varintLoop, hs]

theorem varintLoop_overflow (pre : List Nat) :
    ∀ rest shift acc, (∀ x ∈ pre, 0x80 ≤ x) → 64 ≤ shift + 7 * pre.length →
      varintLoop (pre ++ rest) shift acc = Except.error GoError.intOverflow := by
  induction pre with
  | nil =>
    intro rest shift acc _ hs
    norm_num at hs
    exact varintLoop_shift_ge rest shift acc hs
  | cons p pre ih =>
    intro rest shift acc hall hs
    by_cases hsge : 64 ≤ shift
    · exact varintLoop_shift_ge _ shift acc hsge
    · have hp : 0x80 ≤ p := hall p (List.mem_cons_self p pre)
      rw [List.cons_append, varintLoop_cont _ _ _ _ (by omega) (by omega)]
      apply ih
      · intro x hx
        exact hall x (List.mem_cons_of_mem p hx)
      · simp only [List.length_cons] at hs
        omega

theorem varintLoop_truncated (bs : List Nat) :
    ∀ shift acc, (∀ x ∈ bs, 0x80 ≤ x) → shift + 7 * bs.length < 64 →
      varintLoop bs shift acc = Except.error GoError.unexpectedEOF := by
  induction bs with
  | nil =>
    intro shift acc _ hs
    simp [varintLoop, show ¬ 64 ≤ shift by omega]
  | cons b bs ih =>
    intro shift acc hall hs
    simp only [List.length_cons] at hs
    have hb : 0x80 ≤ b := hall b (List.mem_cons_self b bs)
    rw [varintLoop_cont _ _ _ _ (by omega) (by omega)]
    apply ih
    · intro x hx
      exact hall x (List.mem_cons_of_mem b hx)
    · omega

theorem varintLoop_value (pre : List Nat) :
    ∀ b rest shift acc, (∀ x ∈ pre, 0x80 ≤ x) → b < 0x80 →
      shift + 7 * pre.length < 64 →
      varintLoop (pre ++ b :: rest) shift acc =
        Except.ok (acc ||| varintValue (pre ++ [b]) shift, rest) := by
  induction pre with
  | nil =>
    intro b rest shift acc _ hb hs
    norm_num at hs
    rw [List.nil_append, varintLoop_stop _ _ _ _ hb hs]
    simp [varintValue]
  | cons p pre ih =>
    intro b rest shift acc hall hb hs
    simp only [List.length_cons] at hs
    have hp : 0x80 ≤ p := hall p (List.mem_cons_self p pre)
    rw [List.cons_append, varintLoop_cont _ _ _ _ (by omega) (by omega)]
    rw [ih b rest (shift + 7) _ (fun x hx => hall x (List.mem_cons_of_mem p hx)) hb (by omega)]
    simp only [List.cons_append, varintValue]
    rw [Nat.or_assoc]
    rfl

theorem varintLoop_tagByte (b : Nat) (rest : List Nat) (hb : b < 0x80) :
    varintLoop (b :: rest) 0 0 = Except.ok (b, rest) := by
  rw [varintLoop_stop b rest 0 0 hb (by norm_num)]
  have hm : b &&& 127 = b := by
    rw [and_127_eq_mod]
    exact Nat.mod_eq_of_lt hb
  have hm2 : b % 18446744073709551616 = b := Nat.mod_eq_of_lt (by omega)
  norm_num [hm, hm2]

theorem readLengthDelim_encoded (g rest : List Nat) (iNdEx : Nat)
    (hlen : g.length < 2 ^ 63)
    (hidx : iNdEx + (encodeVarint g.length).length + g.length < 2 ^ 63) :
    readLengthDelim (encodeVarint g.length ++ (g ++ rest)) iNdEx =
      Except.ok (g, rest, iNdEx + (encodeVarint g.length).length + g.length) := by
  rw [readLengthDelim, varint_roundtrip g.length (g ++ rest) (by omega)]
  have hlen2 : ¬ 2 ^ 63 ≤ g.length := by omega
  have harith :
      (encodeVarint g.length ++ (g ++ rest)).length - (g ++ rest).length =
        (encodeVarint g.length).length := by
    simp [List.length_append]
  have hrem : ¬ (g ++ rest).length < g.length := by
    simp [List.length_append]
  simp only [harith, hrem, hlen2, if_neg, if_false, List.take_left' rfl,
    List.drop_left' rfl]
  rw [if_neg (by omega)]

theorem revoke_step_granter (fuel iNdEx : Nat) (g tail : List Nat)
    (m : MsgRevokeFeeAllowance) (hlen : g.length < 2 ^ 63)
    (hidx : iNdEx + 1 + (encodeVarint g.length).length + g.length < 2 ^ 63) :
    MsgRevokeFeeAllowance.unmarshalLoop (fuel + 1)
        (0x0a :: (encodeVarint g.length ++ (g ++ tail))) iNdEx m =
      MsgRevokeFeeAllowance.unmarshalLoop fuel tail
        (iNdEx + 1 + (encodeVarint g.length).length + g.length)
        { m with granter := some g } := by
  conv_lhs => rw [MsgRevokeFeeAllowance.unmarshalLoop]
  rw [varintLoop_tagByte 0x0a _ (by norm_num)]
  dsimp only
  have harith :
      (0x0a :: (encodeVarint g.length ++ (g ++ tail))).length -
        (encodeVarint g.length ++ (g ++ tail)).length = 1 := by
    simp
  rw [harith]
  norm_num [toInt32]
  rw [readLengthDelim_encoded g tail (iNdEx + 1) hlen (by omega)]
  dsimp only
  have e1 : (10 : Nat) >>> 3 = 1 := by decide
  have e2 : (10 : Nat) &&& 7 = 2 := by decide
  rw [e1, e2]
  norm_num

theorem revoke_step_grantee (fuel iNdEx : Nat) (g tail : List Nat)
    (m : MsgRevokeFeeAllowance) (hlen : g.length < 2 ^ 63)
    (hidx : iNdEx + 1 + (encodeVarint g.length).length + g.length < 2 ^ 63) :
    MsgRevokeFeeAllowance.unmarshalLoop (fuel + 1)
        (0x12 :: (encodeVarint g.length ++ (g ++ tail))) iNdEx m =
      MsgRevokeFeeAllowance.unmarshalLoop fuel tail
        (iNdEx + 1 + (encodeVarint g.length).length + g.length)
        { m with grantee := some g } := by
  conv_lhs => rw [MsgRevokeFeeAllowance.unmarshalLoop]
  rw [varintLoop_tagByte 0x12 _ (by norm_num)]
  dsimp only
  have harith :
      (0x12 :: (encodeVarint g.length ++ (g ++ tail))).length -
        (encodeVarint g.length ++ (g ++ tail)).length = 1 := by
    simp
  rw [harith]
  norm_num [toInt32]
  rw [readLengthDelim_encoded g tail (iNdEx + 1) hlen (by omega)]
  dsimp only
  have e1 : (18 : Nat) >>> 3 = 2 := by decide
  have e2 : (18 : Nat) &&& 7 = 2 := by decide
  rw [e1, e2]
  norm_num

theorem revoke_loop_nil (fuel iNdEx : Nat) (m : MsgRevokeFeeAllowance) :
    MsgRevokeFeeAllowance.unmarshalLoop fuel [] iNdEx m = (m, none) := by
  cases fuel with
  | zero => rw [MsgRevokeFeeAllowance.unmarshalLoop]
  | succ fuel => rw [MsgRevokeFeeAllowance.unmarshalLoop]

theorem any_step_typeUrl (fuel iNdEx : Nat) (g tail : List Nat)
    (m : Any) (hlen : g.length < 2 ^ 63)
    (hidx : iNdEx + 1 + (encodeVarint g.length).length + g.length < 2 ^ 63) :
    Any.unmarshalLoop (fuel + 1)
        (0x0a :: (encodeVarint g.length ++ (g ++ tail))) iNdEx m =
      Any.unmarshalLoop fuel tail
        (iNdEx + 1 + (encodeVarint g.length).length + g.length)
        { m with typeUrl := g } := by
  conv_lhs => rw [Any.unmarshalLoop]
  rw [varintLoop_tagByte 0x0a _ (by norm_num)]
  dsimp only
  have harith :
      (0x0a :: (encodeVarint g.length ++ (g ++ tail))).length -
        (encodeVarint g.length ++ (g ++ tail)).length = 1 := by
    simp
  rw [harith]
  norm_num [toInt32]
  rw [readLengthDelim_encoded g tail (iNdEx + 1) hlen (by omega)]
  dsimp only
  have e1 : (10 : Nat) >>> 3 = 1 := by decide
  have e2 : (10 : Nat) &&& 7 = 2 := by decide
  rw [e1, e2]
  norm_num

theorem any_step_value (fuel iNdEx : Nat) (g tail : List Nat)
    (m : Any) (hlen : g.length < 2 ^ 63)
    (hidx : iNdEx + 1 + (encodeVarint g.length).length + g.length < 2 ^ 63) :
    Any.unmarshalLoop (fuel + 1)
        (0x12 :: (encodeVarint g.length ++ (g ++ tail))) iNdEx m =
      Any.unmarshalLoop fuel tail
        (iNdEx + 1 + (encodeVarint g.length).length + g.length)
        { m with value := g } := by
  conv_lhs => rw [Any.unmarshalLoop]
  rw [varintLoop_tagByte 0x12 _ (by norm_num)]
  dsimp only
  have harith :
      (0x12 :: (encodeVarint g.length ++ (g ++ tail))).length -
        (encodeVarint g.length ++ (g ++ tail)).length = 1 := by
    simp
  rw [harith]
  norm_num [toInt32]
  rw [readLengthDelim_encoded g tail (iNdEx + 1) hlen (by omega)]
  dsimp only
  have e1 : (18 : Nat) >>> 3 = 2 := by decide
  have e2 : (18 : Nat) &&& 7 = 2 := by decide
  rw [e1, e2]
  norm_num

theorem any_loop_nil (fuel iNdEx : Nat) (m : Any) :
    Any.unmarshalLoop fuel [] iNdEx m = (m, none) := by
  cases fuel with
  | zero => rw [Any.unmarshalLoop]
  | succ fuel => rw [Any.unmarshalLoop]

theorem any_marshal_ok (a : Any) (htl : a.typeUrl.length < 2 ^ 59)
    (hvl : a.value.length < 2 ^ 59) :
    ∃ bs, a.marshalToSizedBuffer = Except.ok bs ∧ bs.length = a.size ∧
      Any.unmarshal { typeUrl := [], value := [] } bs = Except.ok a := by
  have htl64 : a.typeUrl.length < 2 ^ 64 := by omega
  have hvl64 : a.value.length < 2 ^ 64 := by omega
  have hdt := encodeVarint_length_le a.typeUrl.length htl64
  have hdv := encodeVarint_length_le a.value.length hvl64
  have heta : (⟨a.typeUrl, a.value⟩ : Any) = a := by cases a; rfl
  by_cases htl0 : 0 < a.typeUrl.length <;> by_cases hvl0 : 0 < a.value.length
  · -- both fields present
    have hbs : a.marshalToSizedBuffer = Except.ok
        (0x0a :: (encodeVarint a.typeUrl.length ++ (a.typeUrl ++
          (0x12 :: (encodeVarint a.value.length ++ (a.value ++ [])))))) := by
      rw [Any.marshalToSizedBuffer]
      rw [if_pos hvl0, if_pos htl0]
    have hsz : a.size = 0 + (1 + a.typeUrl.length + sovTx a.typeUrl.length) +
        (1 + a.value.length + sovTx a.value.length) := by
      rw [Any.size]
      rw [if_pos htl0, if_pos hvl0]
    refine ⟨_, hbs, ?_, ?_⟩
    · rw [hsz, sovTx_eq_length _ htl64, sovTx_eq_length _ hvl64]
      simp [List.length_append]
      omega
    · rw [Any.unmarshal]
      have hk : (0x0a :: (encodeVarint a.typeUrl.length ++ (a.typeUrl ++
          (0x12 :: (encodeVarint a.value.length ++ (a.value ++ []))))) : List Nat).length
          = ((encodeVarint a.typeUrl.length).length + a.typeUrl.length +
            (encodeVarint a.value.length).length + a.value.length + 1) + 1 := by
        simp
        omega
      rw [hk]
      rw [any_step_typeUrl _ 0 a.typeUrl
        (0x12 :: (encodeVarint a.value.length ++ (a.value ++ [])))
        { typeUrl := [], value := [] } (by omega) (by omega)]
      rw [any_step_value _ _ a.value [] { typeUrl := a.typeUrl, value := [] }
        (by omega) (by omega)]
      rw [any_loop_nil]
  · -- typeUrl only
    have hvnil : a.value = [] := List.eq_nil_of_length_eq_zero (by omega)
    have hbs : a.marshalToSizedBuffer = Except.ok
        (0x0a :: (encodeVarint a.typeUrl.length ++ (a.typeUrl ++ []))) := by
      rw [Any.marshalToSizedBuffer]
      rw [if_neg hvl0, if_pos htl0]
    have hsz : a.size = 0 + (1 + a.typeUrl.length + sovTx a.typeUrl.length) := by
      rw [Any.size]
      rw [if_pos htl0, if_neg hvl0]
    refine ⟨_, hbs, ?_, ?_⟩
    · rw [hsz, sovTx_eq_length _ htl64]
      simp [List.length_append]
      omega
    · rw [Any.unmarshal]
      have hk : (0x0a :: (encodeVarint a.typeUrl.length ++ (a.typeUrl ++ [])) :
          List Nat).length
          = ((encodeVarint a.typeUrl.length).length + a.typeUrl.length) + 1 := by
        simp
      rw [hk]
      rw [any_step_typeUrl _ 0 a.typeUrl [] { typeUrl := [], value := [] }
        (by omega) (by omega)]
      rw [any_loop_nil]
      dsimp only
      rw [← heta, hvnil]
  · -- value only
    have htnil : a.typeUrl = [] := List.eq_nil_of_length_eq_zero (by omega)
    have hbs : a.marshalToSizedBuffer = Except.ok
        (0x12 :: (encodeVarint a.value.length ++ (a.value ++ []))) := by
      rw [Any.marshalToSizedBuffer]
      rw [if_pos hvl0, if_neg htl0]
    have hsz : a.size = 0 + (1 + a.value.length + sovTx a.value.length) := by
      rw [Any.size]
      rw [if_neg htl0, if_pos hvl0]
    refine ⟨_, hbs, ?_, ?_⟩
    · rw [hsz, sovTx_eq_length _ hvl64]
      simp [List.length_append]
      omega
    · rw [Any.unmarshal]
      have hk : (0x12 :: (encodeVarint a.value.length ++ (a.value ++ [])) :
          List Nat).length
          = ((encodeVarint a.value.length).length + a.value.length) + 1 := by
        simp
      rw [hk]
      rw [any_step_value _ 0 a.value [] { typeUrl := [], value := [] }
        (by omega) (by omega)]
      rw [any_loop_nil]
      dsimp only
      rw [← heta, htnil]
  · -- both empty
    have htnil : a.typeUrl = [] := List.eq_nil_of_length_eq_zero (by omega)
    have hvnil : a.value = [] := List.eq_nil_of_length_eq_zero (by omega)
    have hbs : a.marshalToSizedBuffer = Except.ok [] := by
      rw [Any.marshalToSizedBuffer]
      rw [if_neg hvl0, if_neg htl0]
    have hsz : a.size = 0 := by
      rw [Any.size]
      rw [if_neg htl0, if_neg hvl0]
    refine ⟨_, hbs, ?_, ?_⟩
    · rw [hsz]
      rfl
    · rw [Any.unmarshal, any_loop_nil]
      rw [← heta, htnil, hvnil]

theorem grant_step_granter (fuel iNdEx : Nat) (g tail : List Nat)
    (m : MsgGrantFeeAllowance) (hlen : g.length < 2 ^ 63)
    (hidx : iNdEx + 1 + (encodeVarint g.length).length + g.length < 2 ^ 63) :
    MsgGrantFeeAllowance.unmarshalLoop (fuel + 1)
        (0x0a :: (encodeVarint g.length ++ (g ++ tail))) iNdEx m =
      MsgGrantFeeAllowance.unmarshalLoop fuel tail
        (iNdEx + 1 + (encodeVarint g.length).length + g.length)
        { m with granter := some g } := by
  conv_lhs => rw [MsgGrantFeeAllowance.unmarshalLoop]
  rw [varintLoop_tagByte 0x0a _ (by norm_num)]
  dsimp only
  have harith :
      (0x0a :: (encodeVarint g.length ++ (g ++ tail))).length -
        (encodeVarint g.length ++ (g ++ tail)).length = 1 := by
    simp
  rw [harith]
  norm_num [toInt32]
  rw [readLengthDelim_encoded g tail (iNdEx + 1) hlen (by omega)]
  dsimp only
  have e1 : (10 : Nat) >>> 3 = 1 := by decide
  have e2 : (10 : Nat) &&& 7 = 2 := by decide
  rw [e1, e2]
  norm_num

theorem grant_step_grantee (fuel iNdEx : Nat) (g tail : List Nat)
    (m : MsgGrantFeeAllowance) (hlen : g.length < 2 ^ 63)
    (hidx : iNdEx + 1 + (encodeVarint g.length).length + g.length < 2 ^ 63) :
    MsgGrantFeeAllowance.unmarshalLoop (fuel + 1)
        (0x12 :: (encodeVarint g.length ++ (g ++ tail))) iNdEx m =
      MsgGrantFeeAllowance.unmarshalLoop fuel tail
        (iNdEx + 1 + (encodeVarint g.length).length + g.length)
        { m with grantee := some g } := by
  conv_lhs => rw [MsgGrantFeeAllowance.unmarshalLoop]
  rw [varintLoop_tagByte 0x12 _ (by norm_num)]
  dsimp only
  have harith :
      (0x12 :: (encodeVarint g.length ++ (g ++ tail))).length -
        (encodeVarint g.length ++ (g ++ tail)).length = 1 := by
    simp
  rw [harith]
  norm_num [toInt32]
  rw [readLengthDelim_encoded g tail (iNdEx + 1) hlen (by omega)]
  dsimp only
  have e1 : (18 : Nat) >>> 3 = 2 := by decide
  have e2 : (18 : Nat) &&& 7 = 2 := by decide
  rw [e1, e2]
  norm_num

theorem grant_step_allowance (fuel iNdEx : Nat) (sub tail : List Nat)
    (m : MsgGrantFeeAllowance) (a2 : Any)
    (hsub : Any.unmarshal (m.allowance.getD { typeUrl := [], value := [] }) sub =
      Except.ok a2)
    (hlen : sub.length < 2 ^ 63)
    (hidx : iNdEx + 1 + (encodeVarint sub.length).length + sub.length < 2 ^ 63) :
    MsgGrantFeeAllowance.unmarshalLoop (fuel + 1)
        (0x1a :: (encodeVarint sub.length ++ (sub ++ tail))) iNdEx m =
      MsgGrantFeeAllowance.unmarshalLoop fuel tail
        (iNdEx + 1 + (encodeVarint sub.length).length + sub.length)
        { m with allowance := some a2 } := by
  conv_lhs => rw [MsgGrantFeeAllowance.unmarshalLoop]
  rw [varintLoop_tagByte 0x1a _ (by norm_num)]
  dsimp only
  have harith :
      (0x1a :: (encodeVarint sub.length ++ (sub ++ tail))).length -
        (encodeVarint sub.length ++ (sub ++ tail)).length = 1 := by
    simp
  rw [harith]
  norm_num [toInt32]
  rw [readLengthDelim_encoded sub tail (iNdEx + 1) hlen (by omega)]
  dsimp only
  have e1 : (26 : Nat) >>> 3 = 3 := by decide
  have e2 : (26 : Nat) &&& 7 = 2 := by decide
  rw [e1, e2, hsub]
  norm_num

theorem grant_loop_nil (fuel iNdEx : Nat) (m : MsgGrantFeeAllowance) :
    MsgGrantFeeAllowance.unmarshalLoop fuel [] iNdEx m = (m, none) := by
  cases fuel with
  | zero => rw [MsgGrantFeeAllowance.unmarshalLoop]
  | succ fuel => rw [MsgGrantFeeAllowance.unmarshalLoop]

theorem revoke_marshal_decode (m : MsgRevokeFeeAllowance)
    (h1 : (m.granter.getD []).length < 2 ^ 59)
    (h2 : (m.grantee.getD []).length < 2 ^ 59) :
    (MsgRevokeFeeAllowance.marshal m).length = m.size ∧
    MsgRevokeFeeAllowance.unmarshal { granter := none, grantee := none } m.marshal =
      Except.ok
        { granter := if 0 < (m.granter.getD []).length then some (m.granter.getD []) else none
          grantee := if 0 < (m.grantee.getD []).length then some (m.grantee.getD []) else none } := by
  have h164 : (m.granter.getD []).length < 2 ^ 64 := by omega
  have h264 : (m.grantee.getD []).length < 2 ^ 64 := by omega
  have hd1 := encodeVarint_length_le (m.granter.getD []).length h164
  have hd2 := encodeVarint_length_le (m.grantee.getD []).length h264
  by_cases hg1 : 0 < (m.granter.getD []).length <;>
    by_cases hg2 : 0 < (m.grantee.getD []).length
  · -- both fields present
    have hbs : m.marshal = 0x0a :: (encodeVarint (m.granter.getD []).length ++
        (m.granter.getD [] ++ (0x12 :: (encodeVarint (m.grantee.getD []).length ++
          (m.grantee.getD [] ++ []))))) := by
      rw [MsgRevokeFeeAllowance.marshal, MsgRevokeFeeAllowance.marshalToSizedBuffer]
      rw [if_pos hg2, if_pos hg1]
    have hsz : m.size = 0 + (1 + (m.granter.getD []).length + sovTx (m.granter.getD []).length) +
        (1 + (m.grantee.getD []).length + sovTx (m.grantee.getD []).length) := by
      rw [MsgRevokeFeeAllowance.size]
      rw [if_pos hg1, if_pos hg2]
    constructor
    · rw [hbs, hsz, sovTx_eq_length _ h164, sovTx_eq_length _ h264]
      simp [List.length_append]
      omega
    · rw [hbs, MsgRevokeFeeAllowance.unmarshal]
      have hk : (0x0a :: (encodeVarint (m.granter.getD []).length ++
          (m.granter.getD [] ++ (0x12 :: (encodeVarint (m.grantee.getD []).length ++
            (m.grantee.getD [] ++ []))))) : List Nat).length =
          ((encodeVarint (m.granter.getD []).length).length + (m.granter.getD []).length +
            (encodeVarint (m.grantee.getD []).length).length + (m.grantee.getD []).length
            + 1) + 1 := by
        simp
        omega
      rw [hk]
      rw [revoke_step_granter _ 0 (m.granter.getD [])
        (0x12 :: (encodeVarint (m.grantee.getD []).length ++ (m.grantee.getD [] ++ [])))
        { granter := none, grantee := none } (by omega) (by omega)]
      rw [revoke_step_grantee _ _ (m.grantee.getD []) []
        { granter := some (m.granter.getD []), grantee := none } (by omega) (by omega)]
      rw [revoke_loop_nil]
      rw [if_pos hg1, if_pos hg2]
  · -- granter only
    have hbs : m.marshal = 0x0a :: (encodeVarint (m.granter.getD []).length ++
        (m.granter.getD [] ++ [])) := by
      rw [MsgRevokeFeeAllowance.marshal, MsgRevokeFeeAllowance.marshalToSizedBuffer]
      rw [if_neg hg2, if_pos hg1]
    have hsz : m.size = 0 + (1 + (m.granter.getD []).length + sovTx (m.granter.getD []).length) := by
      rw [MsgRevokeFeeAllowance.size]
      rw [if_pos hg1, if_neg hg2]
    constructor
    · rw [hbs, hsz, sovTx_eq_length _ h164]
      simp [List.length_append]
      omega
    · rw [hbs, MsgRevokeFeeAllowance.unmarshal]
      have hk : (0x0a :: (encodeVarint (m.granter.getD []).length ++
          (m.granter.getD [] ++ [])) : List Nat).length =
          ((encodeVarint (m.granter.getD []).length).length +
            (m.granter.getD []).length) + 1 := by
        simp
      rw [hk]
      rw [revoke_step_granter _ 0 (m.granter.getD []) []
        { granter := none, grantee := none } (by omega) (by omega)]
      rw [revoke_loop_nil]
      rw [if_pos hg1, if_neg hg2]
  · -- grantee only
    have hbs : m.marshal = 0x12 :: (encodeVarint (m.grantee.getD []).length ++
        (m.grantee.getD [] ++ [])) := by
      rw [MsgRevokeFeeAllowance.marshal, MsgRevokeFeeAllowance.marshalToSizedBuffer]
      rw [if_pos hg2, if_neg hg1]
    have hsz : m.size = 0 + (1 + (m.grantee.getD []).length + sovTx (m.grantee.getD []).length) := by
      rw [MsgRevokeFeeAllowance.size]
      rw [if_neg hg1, if_pos hg2]
    constructor
    · rw [hbs, hsz, sovTx_eq_length _ h264]
      simp [List.length_append]
      omega
    · rw [hbs, MsgRevokeFeeAllowance.unmarshal]
      have hk : (0x12 :: (encodeVarint (m.grantee.getD []).length ++
          (m.grantee.getD [] ++ [])) : List Nat).length =
          ((encodeVarint (m.grantee.getD []).length).length +
            (m.grantee.getD []).length) + 1 := by
        simp
      rw [hk]
      rw [revoke_step_grantee _ 0 (m.grantee.getD []) []
        { granter := none, grantee := none } (by omega) (by omega)]
      rw [revoke_loop_nil]
      rw [if_neg hg1, if_pos hg2]
  · -- both empty
    have hbs : m.marshal = [] := by
      rw [MsgRevokeFeeAllowance.marshal, MsgRevokeFeeAllowance.marshalToSizedBuffer]
      rw [if_neg hg2, if_neg hg1]
    have hsz : m.size = 0 := by
      rw [MsgRevokeFeeAllowance.size]
      rw [if_neg hg1, if_neg hg2]
    constructor
    · rw [hbs, hsz]
      rfl
    · rw [hbs, MsgRevokeFeeAllowance.unmarshal, revoke_loop_nil]
      rw [if_neg hg1, if_neg hg2]


theorem any_size_lt (a : Any) (htl : a.typeUrl.length < 2 ^ 59)
    (hvl : a.value.length < 2 ^ 59) : a.size < 2 ^ 61 := by
  have hs1 : sovTx a.typeUrl.length ≤ 10 := by
    rw [sovTx_eq_length _ (by omega)]
    exact encodeVarint_length_le _ (by omega)
  have hs2 : sovTx a.value.length ≤ 10 := by
    rw [sovTx_eq_length _ (by omega)]
    exact encodeVarint_length_le _ (by omega)
  rw [Any.size]
  split_ifs <;> omega

theorem grant_marshal_decode (m : MsgGrantFeeAllowance)
    (h1 : (m.granter.getD []).length < 2 ^ 59)
    (h2 : (m.grantee.getD []).length < 2 ^ 59)
    (ha : ∀ a ∈ m.allowance, a.typeUrl.length < 2 ^ 59 ∧ a.value.length < 2 ^ 59) :
    ∃ bs, m.marshal = Except.ok bs ∧ bs.length = m.size ∧
      MsgGrantFeeAllowance.unmarshal { granter := none, grantee := none, allowance := none }
          bs =
        Except.ok
          { granter := if 0 < (m.granter.getD []).length then some (m.granter.getD []) else none
            grantee := if 0 < (m.grantee.getD []).length then some (m.grantee.getD []) else none
            allowance := m.allowance } := by
  have h164 : (m.granter.getD []).length < 2 ^ 64 := by omega
  have h264 : (m.grantee.getD []).length < 2 ^ 64 := by omega
  have hd1 := encodeVarint_length_le (m.granter.getD []).length h164
  have hd2 := encodeVarint_length_le (m.grantee.getD []).length h264
  cases hma : m.allowance with
  | none =>
    by_cases hg1 : 0 < (m.granter.getD []).length <;>
      by_cases hg2 : 0 < (m.grantee.getD []).length
    · -- granter present, grantee present
      have hbs : m.marshal = Except.ok (0x0a :: (encodeVarint (m.granter.getD []).length ++ (m.granter.getD [] ++ (0x12 :: (encodeVarint (m.grantee.getD []).length ++ (m.grantee.getD [] ++ [])))))) := by
        rw [MsgGrantFeeAllowance.marshal, MsgGrantFeeAllowance.marshalToSizedBuffer, hma]
        dsimp only
        rw [if_pos hg2, if_pos hg1]
      have hsz : m.size = 0 + (1 + (m.granter.getD []).length + sovTx (m.granter.getD []).length) + (1 + (m.grantee.getD []).length + sovTx (m.grantee.getD []).length) := by
        rw [MsgGrantFeeAllowance.size, hma]
        dsimp only
        rw [if_pos hg1, if_pos hg2]
      refine ⟨_, hbs, ?_, ?_⟩
      · rw [hsz, sovTx_eq_length _ h164, sovTx_eq_length _ h264]
        simp [List.length_append]
        omega
      · rw [MsgGrantFeeAllowance.unmarshal]
        have hk : (0x0a :: (encodeVarint (m.granter.getD []).length ++ (m.granter.getD [] ++ (0x12 :: (encodeVarint (m.grantee.getD []).length ++ (m.grantee.getD [] ++ []))))) : List Nat).length = ((encodeVarint (m.granter.getD []).length).length + (m.granter.getD []).length + (encodeVarint (m.grantee.getD []).length).length + (m.grantee.getD []).length + 1) + 1 := by
          simp
          omega
        rw [hk]
        rw [grant_step_granter _ 0 (m.granter.getD []) (0x12 :: (encodeVarint (m.grantee.getD []).length ++ (m.grantee.getD [] ++ [])))
          { granter := none, grantee := none, allowance := none } (by omega) (by omega)]
        rw [grant_step_grantee _ _ (m.grantee.getD []) []
          { granter := some (m.granter.getD []), grantee := none, allowance := none } (by omega) (by omega)]
        rw [grant_loop_nil]
        rw [if_pos hg1, if_pos hg2]
    · -- granter present, grantee absent
      have hbs : m.marshal = Except.ok (0x0a :: (encodeVarint (m.granter.getD []).length ++ (m.granter.getD [] ++ []))) := by
        rw [MsgGrantFeeAllowance.marshal, MsgGrantFeeAllowance.marshalToSizedBuffer, hma]
        dsimp only
        rw [if_neg hg2, if_pos hg1]
      have hsz : m.size = 0 + (1 + (m.granter.getD []).length + sovTx (m.granter.getD []).length) := by
        rw [MsgGrantFeeAllowance.size, hma]
        dsimp only
        rw [if_pos hg1, if_neg hg2]
      refine ⟨_, hbs, ?_, ?_⟩
      · rw [hsz, sovTx_eq_length _ h164]
        simp [List.length_append]
        omega
      · rw [MsgGrantFeeAllowance.unmarshal]
        have hk : (0x0a :: (encodeVarint (m.granter.getD []).length ++ (m.granter.getD [] ++ [])) : List Nat).length = ((encodeVarint (m.granter.getD []).length).length + (m.granter.getD []).length) + 1 := by
          simp
        rw [hk]
        rw [grant_step_granter _ 0 (m.granter.getD []) []
          { granter := none, grantee := none, allowance := none } (by omega) (by omega)]
        rw [grant_loop_nil]
        rw [if_pos hg1, if_neg hg2]
    · -- granter absent, grantee present
      have hbs : m.marshal = Except.ok (0x12 :: (encodeVarint (m.grantee.getD []).length ++ (m.grantee.getD [] ++ []))) := by
        rw [MsgGrantFeeAllowance.marshal, MsgGrantFeeAllowance.marshalToSizedBuffer, hma]
        dsimp only
        rw [if_pos hg2, if_neg hg1]
      have hsz : m.size = 0 + (1 + (m.grantee.getD []).length + sovTx (m.grantee.getD []).length) := by
        rw [MsgGrantFeeAllowance.size, hma]
        dsimp only
        rw [if_neg hg1, if_pos hg2]
      refine ⟨_, hbs, ?_, ?_⟩
      · rw [hsz, sovTx_eq_length _ h264]
        simp [List.length_append]
        omega
      · rw [MsgGrantFeeAllowance.unmarshal]
        have hk : (0x12 :: (encodeVarint (m.grantee.getD []).length ++ (m.grantee.getD [] ++ [])) : List Nat).length = ((encodeVarint (m.grantee.getD []).length).length + (m.grantee.getD []).length) + 1 := by
          simp
        rw [hk]
        rw [grant_step_grantee _ _ (m.grantee.getD []) []
          { granter := none, grantee := none, allowance := none } (by omega) (by omega)]
        rw [grant_loop_nil]
        rw [if_neg hg1, if_pos hg2]
    · -- granter absent, grantee absent
      have hbs : m.marshal = Except.ok ([]) := by
        rw [MsgGrantFeeAllowance.marshal, MsgGrantFeeAllowance.marshalToSizedBuffer, hma]
        dsimp only
        rw [if_neg hg2, if_neg hg1]
      have hsz : m.size = 0 := by
        rw [MsgGrantFeeAllowance.size, hma]
        dsimp only
        rw [if_neg hg1, if_neg hg2]
      refine ⟨_, hbs, ?_, ?_⟩
      · rw [hsz]
        rfl
      · rw [MsgGrantFeeAllowance.unmarshal]
        rw [grant_loop_nil]
        rw [if_neg hg1, if_neg hg2]
  | some a =>
    obtain ⟨htl, hvl⟩ := ha a (by rw [hma]; rfl)
    obtain ⟨sub, hsubeq, hsublen, hsubdec⟩ := any_marshal_ok a htl hvl
    have hsz61 : a.size < 2 ^ 61 := any_size_lt a htl hvl
    have hsz64 : a.size < 2 ^ 64 := by omega
    have hslen : sub.length < 2 ^ 61 := by omega
    have hds := encodeVarint_length_le sub.length (by omega)
    by_cases hg1 : 0 < (m.granter.getD []).length <;>
      by_cases hg2 : 0 < (m.grantee.getD []).length
    · -- granter present, grantee present
      have hbs : m.marshal = Except.ok (0x0a :: (encodeVarint (m.granter.getD []).length ++ (m.granter.getD [] ++ (0x12 :: (encodeVarint (m.grantee.getD []).length ++ (m.grantee.getD [] ++ (0x1a :: (encodeVarint sub.length ++ (sub ++ []))))))))) := by
        rw [MsgGrantFeeAllowance.marshal, MsgGrantFeeAllowance.marshalToSizedBuffer, hma]
        dsimp only
        rw [hsubeq]
        dsimp only
        rw [if_pos hg2, if_pos hg1]
      have hsz : m.size = 0 + (1 + (m.granter.getD []).length + sovTx (m.granter.getD []).length) + (1 + (m.grantee.getD []).length + sovTx (m.grantee.getD []).length) + (1 + a.size + sovTx a.size) := by
        rw [MsgGrantFeeAllowance.size, hma]
        dsimp only
        rw [if_pos hg1, if_pos hg2]
      refine ⟨_, hbs, ?_, ?_⟩
      · rw [hsz, sovTx_eq_length _ h164, sovTx_eq_length _ h264, sovTx_eq_length _ hsz64]
        rw [← hsublen]
        simp [List.length_append]
        omega
      · rw [MsgGrantFeeAllowance.unmarshal]
        have hk : (0x0a :: (encodeVarint (m.granter.getD []).length ++ (m.granter.getD [] ++ (0x12 :: (encodeVarint (m.grantee.getD []).length ++ (m.grantee.getD [] ++ (0x1a :: (encodeVarint sub.length ++ (sub ++ [])))))))) : List Nat).length = ((encodeVarint (m.granter.getD []).length).length + (m.granter.getD []).length + (encodeVarint (m.grantee.getD []).length).length + (m.grantee.getD []).length + (encodeVarint sub.length).length + sub.length + 1 + 1) + 1 := by
          simp
          omega
        rw [hk]
        rw [grant_step_granter _ 0 (m.granter.getD []) (0x12 :: (encodeVarint (m.grantee.getD []).length ++ (m.grantee.getD [] ++ (0x1a :: (encodeVarint sub.length ++ (sub ++ []))))))
          { granter := none, grantee := none, allowance := none } (by omega) (by omega)]
        rw [grant_step_grantee _ _ (m.grantee.getD []) (0x1a :: (encodeVarint sub.length ++ (sub ++ [])))
          { granter := some (m.granter.getD []), grantee := none, allowance := none } (by omega) (by omega)]
        rw [grant_step_allowance _ _ sub []
          { granter := some (m.granter.getD []), grantee := some (m.grantee.getD []), allowance := none } a hsubdec (by omega) (by omega)]
        rw [grant_loop_nil]
        rw [if_pos hg1, if_pos hg2]
    · -- granter present, grantee absent
      have hbs : m.marshal = Except.ok (0x0a :: (encodeVarint (m.granter.getD []).length ++ (m.granter.getD [] ++ (0x1a :: (encodeVarint sub.length ++ (sub ++ [])))))) := by
        rw [MsgGrantFeeAllowance.marshal, MsgGrantFeeAllowance.marshalToSizedBuffer, hma]
        dsimp only
        rw [hsubeq]
        dsimp only
        rw [if_neg hg2, if_pos hg1]
      have hsz : m.size = 0 + (1 + (m.granter.getD []).length + sovTx (m.granter.getD []).length) + (1 + a.size + sovTx a.size) := by
        rw [MsgGrantFeeAllowance.size, hma]
        dsimp only
        rw [if_pos hg1, if_neg hg2]
      refine ⟨_, hbs, ?_, ?_⟩
      · rw [hsz, sovTx_eq_length _ h164, sovTx_eq_length _ hsz64]
        rw [← hsublen]
        simp [List.length_append]
        omega
      · rw [MsgGrantFeeAllowance.unmarshal]
        have hk : (0x0a :: (encodeVarint (m.granter.getD []).length ++ (m.granter.getD [] ++ (0x1a :: (encodeVarint sub.length ++ (sub ++ []))))) : List Nat).length = ((encodeVarint (m.granter.getD []).length).length + (m.granter.getD []).length + (encodeVarint sub.length).length + sub.length + 1) + 1 := by
          simp
          omega
        rw [hk]
        rw [grant_step_granter _ 0 (m.granter.getD []) (0x1a :: (encodeVarint sub.length ++ (sub ++ [])))
          { granter := none, grantee := none, allowance := none } (by omega) (by omega)]
        rw [grant_step_allowance _ _ sub []
          { granter := some (m.granter.getD []), grantee := none, allowance := none } a hsubdec (by omega) (by omega)]
        rw [grant_loop_nil]
        rw [if_pos hg1, if_neg hg2]
    · -- granter absent, grantee present
      have hbs : m.marshal = Except.ok (0x12 :: (encodeVarint (m.grantee.getD []).length ++ (m.grantee.getD [] ++ (0x1a :: (encodeVarint sub.length ++ (sub ++ [])))))) := by
        rw [MsgGrantFeeAllowance.marshal, MsgGrantFeeAllowance.marshalToSizedBuffer, hma]
        dsimp only
        rw [hsubeq]
        dsimp only
        rw [if_pos hg2, if_neg hg1]
      have hsz : m.size = 0 + (1 + (m.grantee.getD []).length + sovTx (m.grantee.getD []).length) + (1 + a.size + sovTx a.size) := by
        rw [MsgGrantFeeAllowance.size, hma]
        dsimp only
        rw [if_neg hg1, if_pos hg2]
      refine ⟨_, hbs, ?_, ?_⟩
      · rw [hsz, sovTx_eq_length _ h264, sovTx_eq_length _ hsz64]
        rw [← hsublen]
        simp [List.length_append]
        omega
      · rw [MsgGrantFeeAllowance.unmarshal]
        have hk : (0x12 :: (encodeVarint (m.grantee.getD []).length ++ (m.grantee.getD [] ++ (0x1a :: (encodeVarint sub.length ++ (sub ++ []))))) : List Nat).length = ((encodeVarint (m.grantee.getD []).length).length + (m.grantee.getD []).length + (encodeVarint sub.length).length + sub.length + 1) + 1 := by
          simp
          omega
        rw [hk]
        rw [grant_step_grantee _ _ (m.grantee.getD []) (0x1a :: (encodeVarint sub.length ++ (sub ++ [])))
          { granter := none, grantee := none, allowance := none } (by omega) (by omega)]
        rw [grant_step_allowance _ _ sub []
          { granter := none, grantee := some (m.grantee.getD []), allowance := none } a hsubdec (by omega) (by omega)]
        rw [grant_loop_nil]
        rw [if_neg hg1, if_pos hg2]
    · -- granter absent, grantee absent
      have hbs : m.marshal = Except.ok (0x1a :: (encodeVarint sub.length ++ (sub ++ []))) := by
        rw [MsgGrantFeeAllowance.marshal, MsgGrantFeeAllowance.marshalToSizedBuffer, hma]
        dsimp only
        rw [hsubeq]
        dsimp only
        rw [if_neg hg2, if_neg hg1]
      have hsz : m.size = 0 + (1 + a.size + sovTx a.size) := by
        rw [MsgGrantFeeAllowance.size, hma]
        dsimp only
        rw [if_neg hg1, if_neg hg2]
      refine ⟨_, hbs, ?_, ?_⟩
      · rw [hsz, sovTx_eq_length _ hsz64]
        rw [← hsublen]
        simp [List.length_append]
        omega
      · rw [MsgGrantFeeAllowance.unmarshal]
        have hk : (0x1a :: (encodeVarint sub.length ++ (sub ++ [])) : List Nat).length = ((encodeVarint sub.length).length + sub.length) + 1 := by
          simp
        rw [hk]
        rw [grant_step_allowance _ _ sub []
          { granter := none, grantee := none, allowance := none } a hsubdec (by omega) (by omega)]
        rw [grant_loop_nil]
        rw [if_neg hg1, if_neg hg2]

theorem skipTx_tag2_negative (bs : List Nat) (v : Nat) (r : List Nat)
    (hv : varintLoop bs 0 0 = Except.ok (v, r)) (hneg : 2 ^ 63 ≤ v) :
    skipTx (0x12 :: bs) = Except.error GoError.invalidLength := by
  rw [skipTx]
  simp only [List.length_cons]
  conv_lhs => rw [skipLoop]
  rw [varintLoop_tagByte 0x12 _ (by norm_num)]
  dsimp only
  have e2 : (18 : Nat) &&& 7 = 2 := by decide
  rw [e2, hv]
  norm_num
  intro hcon
  omega

theorem skipTx_tag2_overrun (n : Nat) (rest : List Nat) (hn : n + 16 < 2 ^ 63) :
    skipTx (0x12 :: (encodeVarint n ++ rest)) =
      Except.ok (1 + (encodeVarint n).length + n) := by
  have hd := encodeVarint_length_le n (by omega)
  rw [skipTx]
  simp only [List.length_cons]
  conv_lhs => rw [skipLoop]
  rw [varintLoop_tagByte 0x12 _ (by norm_num)]
  dsimp only
  have e2 : (18 : Nat) &&& 7 = 2 := by decide
  rw [e2, varint_roundtrip n rest (by omega)]
  dsimp only
  have harith : (encodeVarint n ++ rest).length - rest.length = (encodeVarint n).length := by
    simp
  have harith2 : (0x12 :: (encodeVarint n ++ rest)).length - (encodeVarint n ++ rest).length
      = 1 := by
    simp
  rw [harith, harith2]
  norm_num
  rw [if_neg (by omega : ¬ (9223372036854775808 : Nat) ≤ n),
    if_neg (by omega : ¬ (9223372036854775808 : Nat) ≤ 1 + (encodeVarint n).length + n)]

/-! ### Claim theorems -/

/-- C6: for every input buffer, the varint accumulation loop (shared by
`skipTx` and the `Unmarshal` functions) fails with `IntegerOverflow`
(`ErrIntOverflowTx`) when more than 10 seven-bit groups would have to be read
— i.e. as soon as the first 10 bytes all carry the continuation bit — fails
with `TruncatedInput` (`io.ErrUnexpectedEOF`) when the buffer ends before a
byte without the continuation bit is found, and otherwise returns the value
accumulated 7 bits at a time, low bits first. -/
theorem C6_varint_decode_errors :
    (∀ bs : List Nat, 10 ≤ bs.length → (∀ x ∈ bs.take 10, 0x80 ≤ x) →
      varintLoop bs 0 0 = Except.error GoError.intOverflow) ∧
    (∀ bs : List Nat, bs.length < 10 → (∀ x ∈ bs, 0x80 ≤ x) →
      varintLoop bs 0 0 = Except.error GoError.unexpectedEOF) ∧
    (∀ (pre : List Nat) (b : Nat) (rest : List Nat), pre.length < 10 →
      (∀ x ∈ pre, 0x80 ≤ x) → b < 0x80 →
      varintLoop (pre ++ b :: rest) 0 0 =
        Except.ok (varintValue (pre ++ [b]) 0, rest)) := by
  refine ⟨?_, ?_, ?_⟩
  · intro bs hlen hall
    have hsplit : bs = bs.take 10 ++ bs.drop 10 := (List.take_append_drop 10 bs).symm
    rw [hsplit]
    apply varintLoop_overflow (bs.take 10) (bs.drop 10) 0 0 hall
    have : (bs.take 10).length = 10 := by
      rw [List.length_take]
      omega
    omega
  · intro bs hlen hall
    exact varintLoop_truncated bs 0 0 hall (by omega)
  · intro pre b rest hlen hall hb
    rw [varintLoop_value pre b rest 0 0 hall hb (by omega), Nat.zero_or]

/-- C6 witness: the three behaviours at concrete inputs — ten continuation
bytes overflow, a lone continuation byte truncates, and `[0x96, 0x01]`
decodes to its low-bits-first value. -/
theorem C6_witness :
    varintLoop [0x80, 0x80, 0x80, 0x80, 0x80, 0x80, 0x80, 0x80, 0x80, 0x80, 0x01] 0 0 =
      Except.error GoError.intOverflow ∧
    varintLoop [0x80, 0x80] 0 0 = Except.error GoError.unexpectedEOF ∧
    varintLoop ([0x96] ++ 0x01 :: []) 0 0 =
      Except.ok (varintValue ([0x96] ++ [0x01]) 0, []) :=
  ⟨C6_varint_decode_errors.1 _ (by decide) (by decide),
   C6_varint_decode_errors.2.1 _ (by decide) (by decide),
   C6_varint_decode_errors.2.2 [0x96] 0x01 [] (by decide) (by decide) (by decide)⟩

/-- C3 counterexample: `skipTx` applied to a length-delimited field whose
declared length 5 exceeds the 0 remaining bytes returns success with cursor 7,
past the end of the 2-byte input — it does not fail with `NegativeLength`. -/
theorem C3_counterexample :
    skipTx [0x12, 0x05] = Except.ok 7 ∧ ([0x12, 0x05] : List Nat).length < 7 :=
  ⟨by decide, by decide⟩

/-- C3 amended: for a buffer positioned at a length-delimited field, `skipTx`
fails with `NegativeLength` (`ErrInvalidLengthTx`) exactly when the decoded
length reinterpreted as a signed 64-bit integer is negative; when the length
merely exceeds the remaining bytes it does not fail — at group depth 0 it
returns success with a cursor that lies past the end of the input buffer
(the callers, not the skipper, detect the overrun). -/
theorem C3_amended_skip_length_delim :
    (∀ (bs : List Nat) (v : Nat) (r : List Nat),
      varintLoop bs 0 0 = Except.ok (v, r) → 2 ^ 63 ≤ v →
      skipTx (0x12 :: bs) = Except.error GoError.invalidLength) ∧
    (∀ (n : Nat) (rest : List Nat), n + 16 < 2 ^ 63 →
      skipTx (0x12 :: (encodeVarint n ++ rest)) =
        Except.ok (1 + (encodeVarint n).length + n) ∧
      (rest.length < n →
        (0x12 :: (encodeVarint n ++ rest)).length < 1 + (encodeVarint n).length + n)) := by
  refine ⟨skipTx_tag2_negative, fun n rest hn => ⟨skipTx_tag2_overrun n rest hn, ?_⟩⟩
  intro hlt
  simp
  omega

/-- C3 witness: the negative-length failure at a varint decoding to `2 ^ 63`,
and the overrunning success at length 5 with no payload bytes. -/
theorem C3_witness :
    varintLoop [0x80, 0x80, 0x80, 0x80, 0x80, 0x80, 0x80, 0x80, 0x80, 0x01] 0 0 =
      Except.ok (2 ^ 63, []) ∧
    skipTx (0x12 :: [0x80, 0x80, 0x80, 0x80, 0x80, 0x80, 0x80, 0x80, 0x80, 0x01]) =
      Except.error GoError.invalidLength ∧
    5 + 16 < 2 ^ 63 ∧
    skipTx (0x12 :: (encodeVarint 5 ++ [])) =
      Except.ok (1 + (encodeVarint 5).length + 5) :=
  ⟨by decide,
   C3_amended_skip_length_delim.1 [0x80, 0x80, 0x80, 0x80, 0x80, 0x80, 0x80, 0x80, 0x80, 0x01]
     (2 ^ 63) [] (by decide) (by decide),
   by decide,
   (C3_amended_skip_length_delim.2 5 [] (by decide)).1⟩

/-- C9: decode is not atomic — on the input `[0x0a, 0x01, 0x41, 0xff]` the
`MsgRevokeFeeAllowance` decoder returns `TruncatedInput` (the trailing `0xff`
is an unterminated tag varint), yet the `Granter` field decoded from the
well-formed prefix remains assigned in the destination message. -/
theorem C9_decode_not_atomic :
    MsgRevokeFeeAllowance.unmarshal { granter := none, grantee := none }
        [0x0a, 0x01, 0x41, 0xff] = Except.error GoError.unexpectedEOF ∧
    (MsgRevokeFeeAllowance.unmarshalLoop 4 [0x0a, 0x01, 0x41, 0xff] 0
        { granter := none, grantee := none }).2 = some GoError.unexpectedEOF ∧
    (MsgRevokeFeeAllowance.unmarshalLoop 4 [0x0a, 0x01, 0x41, 0xff] 0
        { granter := none, grantee := none }).1.granter = some [0x41] :=
  ⟨by decide, by decide, by decide⟩

/-- C2 counterexample: with both byte fields set to the empty-but-present
value, `Marshal` emits nothing and `Unmarshal` of the result leaves the
fields absent (`nil`), not empty-but-present — the round trip does not
produce an empty-but-present `Granter`. -/
theorem C2_counterexample :
    MsgRevokeFeeAllowance.unmarshal { granter := none, grantee := none }
        (MsgRevokeFeeAllowance.marshal { granter := some [], grantee := some [] }) =
      Except.ok { granter := none, grantee := none } ∧
    (Except.ok ({ granter := none, grantee := none } : MsgRevokeFeeAllowance) :
        Except GoError MsgRevokeFeeAllowance) ≠
      Except.ok ({ granter := some [], grantee := some [] } : MsgRevokeFeeAllowance) :=
  ⟨by decide, by decide⟩

/-- C2 amended: for a message whose `Granter` is an empty (zero-length but
present) byte sequence, `Encode` omits the field entirely, so
`Decode(Encode(m))` yields `Granter` absent (`nil`) — empty-but-present
collapses to absent and the distinction is lost in that direction.  A
length-delimited field that does appear on the wire with an empty payload
decodes to the empty-but-present value. -/
theorem C2_amended_empty_byte_field_roundtrip :
    (∀ m : MsgRevokeFeeAllowance, m.granter = some [] →
      (m.grantee.getD []).length < 2 ^ 59 →
      ∃ m2, MsgRevokeFeeAllowance.unmarshal { granter := none, grantee := none }
          m.marshal = Except.ok m2 ∧ m2.granter = none) ∧
    MsgRevokeFeeAllowance.unmarshal { granter := none, grantee := none } [0x0a, 0x00] =
      Except.ok { granter := some [], grantee := none } := by
  refine ⟨?_, by decide⟩
  intro m hg hlen
  have hg0 : (m.granter.getD []).length = 0 := by rw [hg]; rfl
  refine ⟨_, (revoke_marshal_decode m (by omega) hlen).2, ?_⟩
  dsimp only
  rw [if_neg (by omega)]

/-- C2 witness: the amended claim at the concrete message with
`Granter = some []`, `Grantee = some [0x42]`. -/
theorem C2_witness :
    ({ granter := some [], grantee := some [0x42] } : MsgRevokeFeeAllowance).granter =
      some [] ∧
    (({ granter := some [], grantee := some [0x42] } :
      MsgRevokeFeeAllowance).grantee.getD []).length < 2 ^ 59 ∧
    ∃ m2, MsgRevokeFeeAllowance.unmarshal { granter := none, grantee := none }
        (MsgRevokeFeeAllowance.marshal { granter := some [], grantee := some [0x42] }) =
        Except.ok m2 ∧ m2.granter = none :=
  ⟨by decide, by decide,
   C2_amended_empty_byte_field_roundtrip.1
     { granter := some [], grantee := some [0x42] } (by decide) (by decide)⟩

/-- C8: the `MsgRevokeFeeAllowance` decoder, on any buffer whose leading tag
varint decodes, fails before consuming any payload bytes (the destination is
left untouched) whenever the wire type is the reserved end-group value 4
("wiretype end group for non-group"), and fails with `IllegalTag` whenever
the field number — the `int32` view of `wire >> 3` — is ≤ 0 (and the wire
type is not 4, which is tested first). -/
theorem C8_illegal_tag_rejected :
    ∀ (m : MsgRevokeFeeAllowance) (dAtA : List Nat) (wire : Nat) (rest : List Nat),
      varintLoop dAtA 0 0 = Except.ok (wire, rest) →
      ((wire &&& 0x7 = 4 →
        MsgRevokeFeeAllowance.unmarshal m dAtA = Except.error GoError.endGroupNonGroup ∧
        (MsgRevokeFeeAllowance.unmarshalLoop dAtA.length dAtA 0 m).1 = m) ∧
      (wire &&& 0x7 ≠ 4 → toInt32 (wire >>> 3) ≤ 0 →
        MsgRevokeFeeAllowance.unmarshal m dAtA = Except.error GoError.illegalTag ∧
        (MsgRevokeFeeAllowance.unmarshalLoop dAtA.length dAtA 0 m).1 = m)) := by
  intro m dAtA wire rest hw
  cases dAtA with
  | nil =>
    rw [show varintLoop [] 0 0 = Except.error GoError.unexpectedEOF from by decide] at hw
    cases hw
  | cons d ds =>
    have hloop : MsgRevokeFeeAllowance.unmarshalLoop (d :: ds).length (d :: ds) 0 m =
        MsgRevokeFeeAllowance.unmarshalLoop (ds.length + 1) (d :: ds) 0 m := by
      rw [List.length_cons]
    constructor
    · intro h4
      have hred : MsgRevokeFeeAllowance.unmarshalLoop (ds.length + 1) (d :: ds) 0 m =
          (m, some GoError.endGroupNonGroup) := by
        conv_lhs => rw [MsgRevokeFeeAllowance.unmarshalLoop]
        rw [hw]
        dsimp only
        rw [if_pos h4]
      constructor
      · rw [MsgRevokeFeeAllowance.unmarshal, List.length_cons, hred]
      · rw [hloop, hred]
    · intro h4 hle
      have hred : MsgRevokeFeeAllowance.unmarshalLoop (ds.length + 1) (d :: ds) 0 m =
          (m, some GoError.illegalTag) := by
        conv_lhs => rw [MsgRevokeFeeAllowance.unmarshalLoop]
        rw [hw]
        dsimp only
        rw [if_neg h4, if_pos hle]
      constructor
      · rw [MsgRevokeFeeAllowance.unmarshal, List.length_cons, hred]
      · rw [hloop, hred]

/-- C8 witness: wire byte `0x0c` (field 1, wire type 4) is rejected as end
group for non-group; wire byte `0x00` (field 0, wire type 0) is rejected as
an illegal tag; both leave the destination untouched. -/
theorem C8_witness :
    varintLoop [0x0c] 0 0 = Except.ok (0x0c, []) ∧
    ((0x0c : Nat) &&& 0x7 = 4) ∧
    MsgRevokeFeeAllowance.unmarshal { granter := some [1], grantee := none } [0x0c] =
      Except.error GoError.endGroupNonGroup ∧
    varintLoop [0x00] 0 0 = Except.ok (0x00, []) ∧
    toInt32 ((0x00 : Nat) >>> 3) ≤ 0 ∧
    MsgRevokeFeeAllowance.unmarshal { granter := some [1], grantee := none } [0x00] =
      Except.error GoError.illegalTag :=
  ⟨by decide, by decide,
   ((C8_illegal_tag_rejected { granter := some [1], grantee := none } [0x0c] 0x0c []
      (by decide)).1 (by decide)).1,
   by decide, by decide,
   ((C8_illegal_tag_rejected { granter := some [1], grantee := none } [0x00] 0x00 []
      (by decide)).2 (by decide) (by decide)).1⟩

/-- C4: round trip — for `MsgRevokeFeeAllowance` and `MsgGrantFeeAllowance`
values whose length-delimited byte fields are non-empty (and, when the
`Allowance` submessage is present, within the modelled `Any` codec),
`Unmarshal` applied to the output of `Marshal` succeeds and reconstructs a
message equal to the original.  The length bounds state that the fields fit
in real Go slices. -/
theorem C4_roundtrip :
    (∀ g1 g2 : List Nat, g1 ≠ [] → g2 ≠ [] → g1.length < 2 ^ 59 → g2.length < 2 ^ 59 →
      MsgRevokeFeeAllowance.unmarshal { granter := none, grantee := none }
          (MsgRevokeFeeAllowance.marshal { granter := some g1, grantee := some g2 }) =
        Except.ok { granter := some g1, grantee := some g2 }) ∧
    (∀ (g1 g2 : List Nat) (al : Option Any), g1 ≠ [] → g2 ≠ [] →
      g1.length < 2 ^ 59 → g2.length < 2 ^ 59 →
      (∀ a ∈ al, a.typeUrl.length < 2 ^ 59 ∧ a.value.length < 2 ^ 59) →
      ∃ bs,
        MsgGrantFeeAllowance.marshal
            { granter := some g1, grantee := some g2, allowance := al } =
          Except.ok bs ∧
        MsgGrantFeeAllowance.unmarshal
            { granter := none, grantee := none, allowance := none } bs =
          Except.ok { granter := some g1, grantee := some g2, allowance := al }) := by
  constructor
  · intro g1 g2 hg1 hg2 hl1 hl2
    have h := (revoke_marshal_decode { granter := some g1, grantee := some g2 } hl1 hl2).2
    dsimp only at h
    simp only [Option.getD_some] at h
    rw [if_pos (List.length_pos.mpr hg1), if_pos (List.length_pos.mpr hg2)] at h
    exact h
  · intro g1 g2 al hg1 hg2 hl1 hl2 hal
    obtain ⟨bs, hmar, _, hdec⟩ :=
      grant_marshal_decode { granter := some g1, grantee := some g2, allowance := al }
        hl1 hl2 hal
    dsimp only at hdec
    simp only [Option.getD_some] at hdec
    rw [if_pos (List.length_pos.mpr hg1), if_pos (List.length_pos.mpr hg2)] at hdec
    exact ⟨bs, hmar, hdec⟩

/-- C4 witness: the round trip at concrete messages, both without and with an
`Allowance` submessage. -/
theorem C4_witness :
    (([7] : List Nat) ≠ [] ∧ ([8] : List Nat) ≠ []) ∧
    MsgRevokeFeeAllowance.unmarshal { granter := none, grantee := none }
        (MsgRevokeFeeAllowance.marshal { granter := some [7], grantee := some [8] }) =
      Except.ok { granter := some [7], grantee := some [8] } ∧
    (∃ bs,
      MsgGrantFeeAllowance.marshal
          { granter := some [7]
            grantee := some [8]
            allowance := some { typeUrl := [1], value := [2, 3] } } =
        Except.ok bs ∧
      MsgGrantFeeAllowance.unmarshal
          { granter := none, grantee := none, allowance := none } bs =
        Except.ok
          { granter := some [7]
            grantee := some [8]
            allowance := some { typeUrl := [1], value := [2, 3] } }) :=
  ⟨⟨by decide, by decide⟩,
   C4_roundtrip.1 [7] [8] (by decide) (by decide) (by decide) (by decide),
   C4_roundtrip.2 [7] [8] (some { typeUrl := [1], value := [2, 3] })
     (by decide) (by decide) (by decide) (by decide) (by decide)⟩

/-- C5: `Marshal` never errors except by propagating a submessage error (the
modelled `Any` submessage marshal is total, so `MsgGrantFeeAllowance.marshal`
always returns `ok`, and `MsgRevokeFeeAllowance.marshal`, which has no
submessage, is total by type), and the returned byte sequence has length
exactly `Size`, where `Size` contributes 0 for every field at its zero/empty
value and tag byte + payload length + varint-length-of-the-length for every
non-empty length-delimited field (see `MsgGrantFeeAllowance.size`). -/
theorem C5_marshal_length_eq_size :
    (∀ m : MsgRevokeFeeAllowance, (m.granter.getD []).length < 2 ^ 59 →
      (m.grantee.getD []).length < 2 ^ 59 →
      (MsgRevokeFeeAllowance.marshal m).length = m.size) ∧
    (∀ m : MsgGrantFeeAllowance, (m.granter.getD []).length < 2 ^ 59 →
      (m.grantee.getD []).length < 2 ^ 59 →
      (∀ a ∈ m.allowance, a.typeUrl.length < 2 ^ 59 ∧ a.value.length < 2 ^ 59) →
      ∃ bs, m.marshal = Except.ok bs ∧ bs.length = m.size) := by
  constructor
  · intro m h1 h2
    exact (revoke_marshal_decode m h1 h2).1
  · intro m h1 h2 ha
    obtain ⟨bs, hmar, hlen, _⟩ := grant_marshal_decode m h1 h2 ha
    exact ⟨bs, hmar, hlen⟩

/-- C5 witness: the length equality at concrete messages of both types. -/
theorem C5_witness :
    (MsgRevokeFeeAllowance.marshal { granter := some [7, 9], grantee := none }).length =
      MsgRevokeFeeAllowance.size { granter := some [7, 9], grantee := none } ∧
    ∃ bs,
      MsgGrantFeeAllowance.marshal
          { granter := some [7]
            grantee := some [8]
            allowance := some { typeUrl := [1], value := [2, 3] } } =
        Except.ok bs ∧
      bs.length = MsgGrantFeeAllowance.size
        { granter := some [7]
          grantee := some [8]
          allowance := some { typeUrl := [1], value := [2, 3] } } :=
  ⟨C5_marshal_length_eq_size.1 { granter := some [7, 9], grantee := none }
     (by decide) (by decide),
   C5_marshal_length_eq_size.2
     { granter := some [7]
       grantee := some [8]
       allowance := some { typeUrl := [1], value := [2, 3] } }
     (by decide) (by decide) (by decide)⟩

/-- C1 counterexample: `RegisterService` does not go through `AddRoute`.
`AddRoute` itself rejects the service name `"cosmos.feegrant.v1beta1.Msg"`
(InvalidPathCharacters, dots are not alphanumeric), yet `RegisterService`
inserts that very name silently; registering again on the same router also
succeeds, silently overwriting the entry (the route's behaviour switches
from the first implementation's to the second's). -/
theorem C1_counterexample :
    isAlphaNumeric ("cosmos.feegrant.v1beta1.Msg") = false ∧
    QueryRouter.addRoute newQueryRouter ("cosmos.feegrant.v1beta1.Msg")
        (fun _ _ => Except.ok []) = Except.error GoError.invalidPathCharacters ∧
    QueryRouter.routeApply
        (QueryRouter.registerService newQueryRouter msgServiceDesc msgServerErr)
        ("cosmos.feegrant.v1beta1.Msg") ["RevokeFeeAllowance"] [] =
      some (Except.error GoError.notSupported) ∧
    QueryRouter.routeApply
        (QueryRouter.registerService
          (QueryRouter.registerService newQueryRouter msgServiceDesc msgServerErr)
          msgServiceDesc msgServerOk)
        ("cosmos.feegrant.v1beta1.Msg") ["RevokeFeeAllowance"] [] =
      some (Except.ok []) := by
  refine ⟨by decide, ?_, by decide, by decide⟩
  rw [QueryRouter.addRoute, if_pos (by decide)]

/-- C1 amended: `RegisterService` inserts exactly one route-table entry, but
by assigning directly into the table, bypassing `AddRoute`: it never fails
and it replaces any entry already stored under the service name, leaving all
other entries untouched; only direct `AddRoute` calls fail at startup with
`InvalidPathCharacters` on a non-alphanumeric path or `DuplicateRoute` on a
path already present. -/
theorem C1_amended_registerService_bypasses_addRoute :
    (∀ {σ : Type} (qrt : QueryRouter) (sd : ServiceDesc σ) (impl : σ),
      ((QueryRouter.registerService qrt sd impl).routes sd.serviceName).isSome = true ∧
      ∀ p, p ≠ sd.serviceName →
        (QueryRouter.registerService qrt sd impl).routes p = qrt.routes p) ∧
    (∀ (qrt : QueryRouter) (path : String) (q : Querier),
      isAlphaNumeric path = false →
      QueryRouter.addRoute qrt path q = Except.error GoError.invalidPathCharacters) ∧
    (∀ (qrt : QueryRouter) (path : String) (q : Querier),
      isAlphaNumeric path = true → (qrt.routes path).isSome = true →
      QueryRouter.addRoute qrt path q = Except.error GoError.duplicateRoute) := by
  refine ⟨fun qrt sd impl => ⟨?_, ?_⟩, ?_, ?_⟩
  · rw [QueryRouter.registerService]
    dsimp only
    rw [if_pos rfl]
    rfl
  · intro p hp
    rw [QueryRouter.registerService]
    dsimp only
    rw [if_neg hp]
  · intro qrt path q halpha
    rw [QueryRouter.addRoute, if_pos (by simp [halpha])]
  · intro qrt path q halpha hdup
    rw [QueryRouter.addRoute, if_neg (by simp [halpha]), if_pos hdup]

/-- C1 witness: the amended claim at concrete inputs — the `Msg` service
registered over the empty router, a lookup at a different path, `AddRoute`
on `"bad-path"`, and a duplicate `AddRoute` on `"abc"`. -/
theorem C1_witness :
    ((QueryRouter.registerService newQueryRouter msgServiceDesc
        msgServerOk).routes msgServiceDesc.serviceName).isSome = true ∧
    (("zzz" : String) ≠ msgServiceDesc.serviceName ∧
      (QueryRouter.registerService newQueryRouter msgServiceDesc msgServerOk).routes
          ("zzz") = newQueryRouter.routes ("zzz")) ∧
    (isAlphaNumeric ("bad-path") = false ∧
      QueryRouter.addRoute newQueryRouter ("bad-path") (fun _ _ => Except.ok []) =
        Except.error GoError.invalidPathCharacters) ∧
    (isAlphaNumeric ("abc") = true ∧
      ((QueryRouter.registerService newQueryRouter
          { serviceName := "abc", methods := [] } ()).routes ("abc")).isSome = true ∧
      QueryRouter.addRoute
          (QueryRouter.registerService newQueryRouter
            { serviceName := "abc", methods := [] } ())
          ("abc") (fun _ _ => Except.ok []) = Except.error GoError.duplicateRoute) :=
  ⟨(C1_amended_registerService_bypasses_addRoute.1 newQueryRouter msgServiceDesc
      msgServerOk).1,
   ⟨by decide,
    (C1_amended_registerService_bypasses_addRoute.1 newQueryRouter msgServiceDesc
      msgServerOk).2 ("zzz") (by decide)⟩,
   ⟨by decide,
    C1_amended_registerService_bypasses_addRoute.2.1 newQueryRouter ("bad-path")
      (fun _ _ => Except.ok []) (by decide)⟩,
   ⟨by decide, by decide,
    C1_amended_registerService_bypasses_addRoute.2.2
      (QueryRouter.registerService newQueryRouter
        { serviceName := "abc", methods := [] } ())
      ("abc") (fun _ _ => Except.ok []) (by decide) (by decide)⟩⟩

/-- C7: `Invoke` fails with `MalformedPath` ("unexpected method name") when
the method string does not split on `/` into exactly 3 segments; fails with
`HandlerNotFound` when no route is registered under the middle segment; on
the registered `Msg` service route, fails with `UnknownPath` ("unknown query
path") when neither method name matches the last segment; and for the
matching method decodes the request bytes, runs the implementation, and
returns its encoded response (decoded into the reply message). -/
theorem C7_invoke_dispatch :
    (∀ (q : QueryServiceTestHelper) (method : String) (args : MsgRevokeFeeAllowance),
      (stringsSplitSlash method).length ≠ 3 →
      QueryServiceTestHelper.invoke q method args = Except.error GoError.malformedPath) ∧
    (∀ (q : QueryServiceTestHelper) (method pre svc mth : String)
      (args : MsgRevokeFeeAllowance),
      stringsSplitSlash method = [pre, svc, mth] → q.router.routes svc = none →
      QueryServiceTestHelper.invoke q method args = Except.error GoError.handlerNotFound) ∧
    (∀ (qrt : QueryRouter) (impl : MsgServer) (method pre mth : String)
      (args : MsgRevokeFeeAllowance),
      stringsSplitSlash method = [pre, "cosmos.feegrant.v1beta1.Msg", mth] →
      mth ≠ "GrantFeeAllowance" → mth ≠ "RevokeFeeAllowance" →
      QueryServiceTestHelper.invoke
          { router := QueryRouter.registerService qrt msgServiceDesc impl } method args =
        Except.error GoError.unknownPath) ∧
    (∀ (qrt : QueryRouter) (impl : MsgServer) (method pre : String)
      (args : MsgRevokeFeeAllowance),
      stringsSplitSlash method = [pre, "cosmos.feegrant.v1beta1.Msg", "RevokeFeeAllowance"] →
      QueryServiceTestHelper.invoke
          { router := QueryRouter.registerService qrt msgServiceDesc impl } method args =
        match MsgRevokeFeeAllowance.unmarshal { granter := none, grantee := none }
            (MsgRevokeFeeAllowance.marshal args) with
        | Except.error e => Except.error e
        | Except.ok req =>
          match impl.revokeFeeAllowance req with
          | Except.error e => Except.error e
          | Except.ok res => MsgRevokeFeeAllowanceResponse.unmarshal {} res.marshal) := by
  refine ⟨?_, ?_, ?_, ?_⟩
  · intro q method args hlen
    match hsp : stringsSplitSlash method with
    | [] => rw [QueryServiceTestHelper.invoke, hsp]
    | [a] => rw [QueryServiceTestHelper.invoke, hsp]
    | [a, b] => rw [QueryServiceTestHelper.invoke, hsp]
    | [a, b, c] => exact absurd (by rw [hsp]; rfl) hlen
    | a :: b :: c :: d :: tail => rw [QueryServiceTestHelper.invoke, hsp]
  · intro q method pre svc mth args hsp hroute
    rw [QueryServiceTestHelper.invoke, hsp]
    dsimp only
    rw [hroute]
  · intro qrt impl method pre mth args hsp hne1 hne2
    rw [QueryServiceTestHelper.invoke, hsp]
    dsimp only
    rw [QueryRouter.registerService]
    dsimp only
    rw [if_pos (show ("cosmos.feegrant.v1beta1.Msg" : String) =
      msgServiceDesc.serviceName from rfl)]
    dsimp only
    rw [show msgServiceDesc.methods.find? (fun md => md.methodName = mth) = none from by
      rw [msgServiceDesc]
      dsimp only
      rw [List.find?]
      rw [show (decide ("GrantFeeAllowance" = mth)) = false from
        decide_eq_false (Ne.symm hne1)]
      rw [List.find?]
      rw [show (decide ("RevokeFeeAllowance" = mth)) = false from
        decide_eq_false (Ne.symm hne2)]
      rw [List.find?]]
  · intro qrt impl method pre args hsp
    rw [QueryServiceTestHelper.invoke, hsp]
    dsimp only
    rw [QueryRouter.registerService]
    dsimp only
    rw [if_pos (show ("cosmos.feegrant.v1beta1.Msg" : String) =
      msgServiceDesc.serviceName from rfl)]
    dsimp only
    rw [show msgServiceDesc.methods.find?
        (fun md => md.methodName = ("RevokeFeeAllowance" : String)) =
        some { methodName := "RevokeFeeAllowance",
               handler := msgRevokeFeeAllowanceHandler } from rfl]
    dsimp only
    rw [msgRevokeFeeAllowanceHandler]
    rcases hdec : MsgRevokeFeeAllowance.unmarshal { granter := none, grantee := none }
        (MsgRevokeFeeAllowance.marshal args) with e | req
    · rfl
    · dsimp only
      rcases hres : impl.revokeFeeAllowance req with e | res <;> rfl

/-- C7 witness: the four dispatch outcomes at concrete inputs over the
registered `Msg` service. -/
theorem C7_witness :
    (stringsSplitSlash ("badpath")).length ≠ 3 ∧
    QueryServiceTestHelper.invoke newQueryServerTestHelper ("badpath")
        { granter := none, grantee := none } = Except.error GoError.malformedPath ∧
    stringsSplitSlash ("/nosuch/Do") = ["", "nosuch", "Do"] ∧
    QueryServiceTestHelper.invoke newQueryServerTestHelper ("/nosuch/Do")
        { granter := none, grantee := none } = Except.error GoError.handlerNotFound ∧
    QueryServiceTestHelper.invoke
        { router := QueryRouter.registerService newQueryRouter msgServiceDesc msgServerOk }
        ("/cosmos.feegrant.v1beta1.Msg/NoSuchMethod")
        { granter := none, grantee := none } = Except.error GoError.unknownPath ∧
    QueryServiceTestHelper.invoke
        { router := QueryRouter.registerService newQueryRouter msgServiceDesc msgServerOk }
        ("/cosmos.feegrant.v1beta1.Msg/RevokeFeeAllowance")
        { granter := some [1], grantee := some [2] } = Except.ok {} :=
  ⟨by decide,
   C7_invoke_dispatch.1 newQueryServerTestHelper ("badpath")
     { granter := none, grantee := none } (by decide),
   by decide,
   C7_invoke_dispatch.2.1 newQueryServerTestHelper ("/nosuch/Do") "" "nosuch" "Do"
     { granter := none, grantee := none } (by decide) rfl,
   C7_invoke_dispatch.2.2.1 newQueryRouter msgServerOk
     ("/cosmos.feegrant.v1beta1.Msg/NoSuchMethod") "" "NoSuchMethod"
     { granter := none, grantee := none } (by decide) (by decide) (by decide),
   (C7_invoke_dispatch.2.2.2 newQueryRouter msgServerOk
     ("/cosmos.feegrant.v1beta1.Msg/RevokeFeeAllowance") ""
     { granter := some [1], grantee := some [2] } (by decide)).trans (by decide)⟩

/-- C10: `Invoke` validates only the number of path segments, never the shape
of the first segment: any two method strings that split on `/` into three
segments with the same middle (service) and last (method) segment — e.g.
`"x/svc/Do"` and `"/svc/Do"` — are dispatched identically; the leading
segment is never inspected. -/
theorem C10_leading_segment_never_inspected :
    ∀ (q : QueryServiceTestHelper) (args : MsgRevokeFeeAllowance)
      (m1 m2 a1 a2 svc mth : String),
      stringsSplitSlash m1 = [a1, svc, mth] →
      stringsSplitSlash m2 = [a2, svc, mth] →
      QueryServiceTestHelper.invoke q m1 args = QueryServiceTestHelper.invoke q m2 args := by
  intro q args m1 m2 a1 a2 svc mth h1 h2
  rw [QueryServiceTestHelper.invoke, QueryServiceTestHelper.invoke, h1, h2]

/-- C10 witness: `"x/cosmos.feegrant.v1beta1.Msg/RevokeFeeAllowance"` (leading
segment `"x"`, not empty) is dispatched exactly like the canonical
`"/cosmos.feegrant.v1beta1.Msg/RevokeFeeAllowance"`, and both succeed on the
registered service. -/
theorem C10_witness :
    stringsSplitSlash ("x/cosmos.feegrant.v1beta1.Msg/RevokeFeeAllowance") =
      ["x", "cosmos.feegrant.v1beta1.Msg", "RevokeFeeAllowance"] ∧
    stringsSplitSlash ("/cosmos.feegrant.v1beta1.Msg/RevokeFeeAllowance") =
      ["", "cosmos.feegrant.v1beta1.Msg", "RevokeFeeAllowance"] ∧
    QueryServiceTestHelper.invoke
        { router := QueryRouter.registerService newQueryRouter msgServiceDesc msgServerOk }
        ("x/cosmos.feegrant.v1beta1.Msg/RevokeFeeAllowance")
        { granter := some [1], grantee := some [2] } =
      QueryServiceTestHelper.invoke
        { router := QueryRouter.registerService newQueryRouter msgServiceDesc msgServerOk }
        ("/cosmos.feegrant.v1beta1.Msg/RevokeFeeAllowance")
        { granter := some [1], grantee := some [2] } ∧
    QueryServiceTestHelper.invoke
        { router := QueryRouter.registerService newQueryRouter msgServiceDesc msgServerOk }
        ("x/cosmos.feegrant.v1beta1.Msg/RevokeFeeAllowance")
        { granter := some [1], grantee := some [2] } = Except.ok {} :=
  ⟨by decide, by decide,
   C10_leading_segment_never_inspected
     { router := QueryRouter.registerService newQueryRouter msgServiceDesc msgServerOk }
     { granter := some [1], grantee := some [2] }
     ("x/cosmos.feegrant.v1beta1.Msg/RevokeFeeAllowance")
     ("/cosmos.feegrant.v1beta1.Msg/RevokeFeeAllowance")
     "x" "" "cosmos.feegrant.v1beta1.Msg" "RevokeFeeAllowance"
     (by decide) (by decide),
   by decide⟩
